import Mathlib

/-!
Verification of the restaurant-scene newsletter engine.

The TypeScript source is embedded shallowly:
* JS strings are `List Char` (`Str`); the regex searches of the source are
  translated into explicit left-to-right scanners with the same
  leftmost-match semantics.
* JS objects used as string maps (`Record<string, string>`) are association
  lists with insertion-order update semantics (`setParam`).
* The platform collaborators (`fetch`, `JSON.parse`, the D1 database) are
  modelled as explicit parameters: outbound HTTP is an oracle
  `Fetcher : Nat → HttpRequest → FetchOutcome` consulted once per request,
  and every issued request is accumulated in a trace; database writes are
  accumulated as lists of rows.
-/

/-- JS strings, modelled as lists of characters. -/
abbrev Str := List Char

/-- Coerce a Lean string literal to the `Str` model. -/
def str (s : String) : Str := s.data

/-- The two quote characters recognised by the source's `["']` regex class. -/
def isQuote (c : Char) : Bool := c == '"' || c == '\''

/-- The JS `\s` class, restricted to the characters that can actually occur in
the engine's inputs (ASCII whitespace plus NBSP). -/
def jsWhitespace (c : Char) : Bool :=
  c == ' ' || c == '\t' || c == '\n' || c == '\r' || c == '\x0b' || c == '\x0c' ||
  c == ' '

/-- ASCII word characters, the JS `\w` class. -/
def isWordChar (c : Char) : Bool :=
  ('a' ≤ c && c ≤ 'z') || ('A' ≤ c && c ≤ 'Z') || ('0' ≤ c && c ≤ '9') || c == '_'

/-- Case-insensitive prefix test; the needle is supplied lowercase. -/
def isPrefixCI : Str → Str → Bool
  | [], _ => true
  | _ :: _, [] => false
  | n :: ns, h :: hs => n == h.toLower && isPrefixCI ns hs

/-- Prefix test, selecting case-insensitive (`/i` regexes) or exact matching. -/
def prefMatch (ci : Bool) (needle hay : Str) : Bool :=
  if ci then isPrefixCI needle hay else needle.isPrefixOf hay

/-- Index of the leftmost occurrence of `needle` (needle lowercase when `ci`). -/
def findIdx (ci : Bool) (needle : Str) : Str → Option Nat
  | [] => if needle = [] then some 0 else none
  | h :: hs =>
    if prefMatch ci needle (h :: hs) then some 0
    else (findIdx ci needle hs).map (· + 1)

/-- Substring test with the same conventions as `findIdx`. -/
def containsStr (ci : Bool) (needle hay : Str) : Bool := (findIdx ci needle hay).isSome

/-- Case-insensitive substring test; needle supplied lowercase. -/
def containsCI (needle hay : Str) : Bool := containsStr true needle hay

/-- Does the run start with `http://` or `https://` (the regex `https?:\/\/`)? -/
def startsWithScheme (run : Str) : Bool :=
  isPrefixCI (str "http://") run || isPrefixCI (str "https://") run

/-- Drop the URL scheme matched by `https?:\/\/`, if present. -/
def dropScheme (run : Str) : Option Str :=
  if isPrefixCI (str "http://") run then some (run.drop 7)
  else if isPrefixCI (str "https://") run then some (run.drop 8)
  else none

/-- Scanner for the source's recurring regex shape `marker["']([^"']*)["']`:
find the leftmost occurrence of `marker` that is followed by a quote, take the
run of non-quote characters up to the next quote (which must exist), and return
that run if `check` accepts it; otherwise keep scanning to the right, as the
regex engine does. -/
def scanQuotedRun (ci : Bool) (marker : Str) (check : Str → Bool) : Str → Option Str
  | [] => none
  | c :: rest =>
    (if prefMatch ci marker (c :: rest) then
      match (c :: rest).drop marker.length with
      | q :: body =>
        if isQuote q then
          let run := body.takeWhile (fun ch => !isQuote ch)
          if body.drop run.length ≠ [] && check run then some run else none
        else none
      | [] => none
    else none).orElse (fun _ => scanQuotedRun ci marker check rest)

/-- Scanner for the shape `marker(CAPTURE)` where the capture is a nonempty
greedy run of characters not satisfying `stop` (classes such as `[^"'&\s]+`). -/
def scanCaptureAfter (ci : Bool) (marker : Str) (stop : Char → Bool) : Str → Option Str
  | [] => none
  | c :: rest =>
    (if prefMatch ci marker (c :: rest) then
      let cap := ((c :: rest).drop marker.length).takeWhile (fun ch => !stop ch)
      if cap ≠ [] then some cap else none
    else none).orElse (fun _ => scanCaptureAfter ci marker stop rest)

/-- Test for the shape `attr=["']value["']` (exact value between two quotes). -/
def hasAttrValCI (marker value : Str) (s : Str) : Bool :=
  (scanQuotedRun true marker (fun run => run.map Char.toLower == value) s).isSome

/-! ### JS object maps -/

/-- JS `Record<string, string>` values: association lists in insertion order. -/
abbrev Params := List (Str × Str)

/-- JS property write `obj[k] = v`: update in place, or append a new key. -/
def setParam (ps : Params) (k v : Str) : Params :=
  if ps.any (fun p => p.1 == k) then
    ps.map (fun p => if p.1 == k then (k, v) else p)
  else ps ++ [(k, v)]

/-- JS property read `obj[k]`, `undefined` as `none`. -/
def getParam (ps : Params) (k : Str) : Option Str :=
  (ps.find? (fun p => p.1 == k)).map (·.2)

/-- Model of `Object.assign(dst, src)`: fold every binding of `src` into `dst`. -/
def objAssign (dst src : Params) : Params :=
  src.foldl (fun acc p => setParam acc p.1 p.2) dst

/-- JS string truthiness: only the empty string is falsy. -/
def jsTruthy : Option Str → Bool
  | none => false
  | some s => s ≠ []

/-! ### URL query parsing (`new URL(url).searchParams.get(p)`) -/

/-- Hex digit value, for percent-decoding of query components. -/
def hexVal (c : Char) : Option Nat :=
  let n := c.toNat
  if 48 ≤ n && n ≤ 57 then some (n - 48)
  else if 97 ≤ n && n ≤ 102 then some (n - 87)
  else if 65 ≤ n && n ≤ 70 then some (n - 55)
  else none

/-- Percent-decoding of a query component (single-byte model of the platform
decoder; `+` decodes to a space). -/
def pctDecode : Str → Str
  | [] => []
  | '+' :: rest => ' ' :: pctDecode rest
  | '%' :: a :: b :: rest =>
    match hexVal a, hexVal b with
    | some ha, some hb => Char.ofNat (16 * ha + hb) :: pctDecode rest
    | _, _ => '%' :: pctDecode (a :: b :: rest)
  | c :: rest => c :: pctDecode rest

/-- Split on a separator character. -/
def splitOnChar (c : Char) : Str → List Str
  | [] => [[]]
  | h :: t =>
    if h == c then [] :: splitOnChar c t
    else
      match splitOnChar c t with
      | [] => [[h]]
      | s :: ss => (h :: s) :: ss

/-- Parse a query string into decoded key/value pairs. -/
def parseQueryPairs (q : Str) : Params :=
  (splitOnChar '&' q).filterMap (fun seg =>
    if seg = [] then none
    else
      let k := seg.takeWhile (fun c => c ≠ '=')
      let v := if k.length < seg.length then seg.drop (k.length + 1) else []
      some (pctDecode k, pctDecode v))

/-- Model of the source's `tryUrlParam`: `new URL(url).searchParams.get(param)`,
with `null` on parse failure. The model parses absolute http(s) URLs — the only
shape the call sites feed it — and treats an empty host as a parse failure. -/
def tryUrlParam (url : Str) (param : Str) : Option Str :=
  match dropScheme url with
  | none => none
  | some rest =>
    let beforeHash := rest.takeWhile (fun c => c ≠ '#')
    let host := beforeHash.takeWhile (fun c => c ≠ '/' && c ≠ '?')
    if host = [] then none
    else
      let q :=
        match (beforeHash.drop host.length).dropWhile (fun c => c ≠ '?') with
        | _ :: t => t
        | [] => []
      getParam (parseQueryPairs q) param

/-! ### Form and hidden-input scanning (`providers.ts` helpers) -/

/-- All matches of `/<form[^>]*>[\s\S]*?<\/form>/gi`: each match runs from a
`<form` through the first `>` after it and on to the first `</form>`; scanning
resumes after the match, as with a global regex. -/
def scanFormsGo : Nat → Str → List Str
  | 0, _ => []
  | fuel + 1, s =>
    match findIdx true (str "<form") s with
    | none => []
    | some i =>
      let afterTag := (s.drop i).drop 5
      let pre := afterTag.takeWhile (fun c => c ≠ '>')
      match afterTag.drop pre.length with
      | [] => []
      | _ :: body =>
        match findIdx true (str "</form>") body with
        | none => []
        | some j =>
          let matchLen := 5 + pre.length + 1 + j + 7
          (s.drop i).take matchLen :: scanFormsGo fuel (s.drop (i + matchLen))

/-- Wrapper supplying enough fuel (every match consumes at least one char). -/
def scanForms (s : Str) : List Str := scanFormsGo (s.length + 1) s

/-- Model of `findFormContaining(html, pattern)` for a literal case-insensitive pattern:
first `<form>…</form>` block containing the needle. -/
def findFormContaining (needle : Str) (html : Str) : Option Str :=
  (scanForms html).find? (fun f => containsCI needle f)

/-- Does a tag body contain `type=["']hidden["']` (quotes independent, `/i`)? -/
def containsTypeHidden : Str → Bool
  | [] => false
  | c :: rest =>
    (isPrefixCI (str "type=") (c :: rest) &&
      (match (c :: rest).drop 5 with
       | q1 :: r =>
         isQuote q1 && isPrefixCI (str "hidden") r &&
           (match r.drop 6 with
            | q2 :: _ => isQuote q2
            | [] => false)
       | [] => false)) ||
    containsTypeHidden rest

/-- All matches of `/<input[^>]+type=["']hidden["'][^>]*>/gi`: an `<input` tag
running to the first `>`, whose attribute text contains `type=…hidden…` at
offset ≥ 1 (the `[^>]+` requires one character after `<input`). A failed
candidate resumes scanning one character later, a successful match after the
closing `>`. -/
def scanHiddenInputsGo : Nat → Str → List Str
  | 0, _ => []
  | fuel + 1, s =>
    match findIdx true (str "<input") s with
    | none => []
    | some i =>
      let afterTag := (s.drop i).drop 6
      let pre := afterTag.takeWhile (fun c => c ≠ '>')
      match afterTag.drop pre.length with
      | [] => []
      | _ :: _ =>
        if containsTypeHidden (pre.drop 1) then
          (s.drop i).take (6 + pre.length + 1) ::
            scanHiddenInputsGo fuel (s.drop (i + 6 + pre.length + 1))
        else scanHiddenInputsGo fuel (s.drop (i + 1))

def scanHiddenInputs (s : Str) : List Str := scanHiddenInputsGo (s.length + 1) s

/-- Model of `extractHiddenInputs(formHtml)`: for each hidden input tag, the first
`name=["']([^"']+)["']` capture mapped to the first `value=["']([^"']*?)["']`
capture (both case-sensitive in the source), defaulting to the empty string. -/
def extractHiddenInputs (formHtml : Str) : Params :=
  (scanHiddenInputs formHtml).foldl (fun ps tag =>
    match scanQuotedRun false (str "name=") (fun run => run ≠ []) tag with
    | some nm =>
      let v := (scanQuotedRun false (str "value=") (fun _ => true) tag).getD []
      setParam ps nm v
    | none => ps) []

/-! ### Provider matchers (`providers.ts`) -/

/-- Result of a single matcher (`ProviderMatcher.detect`). -/
structure MatchResult where
  matched : Bool
  confidence : Nat
  endpoint : Option Str
  params : Params
deriving Repr, DecidableEq

/-- Mailchimp script-source check:
`https?:\/\/mc\.us\d+\.list-manage\.com[^"']*` applied to a quoted run. -/
def mcScriptCheck (run : Str) : Bool :=
  match dropScheme run with
  | none => false
  | some r =>
    isPrefixCI (str "mc.us") r &&
      (let r2 := r.drop 5
       let digits := r2.takeWhile Char.isDigit
       digits ≠ [] && isPrefixCI (str ".list-manage.com") (r2.drop digits.length))

/-- The case-sensitive server capture `/mc\.(us\d+)\.list-manage\.com/`. -/
def mcServerCapture : Str → Option Str
  | [] => none
  | c :: rest =>
    (if (str "mc.us").isPrefixOf (c :: rest) then
      let r := (c :: rest).drop 5
      let digits := r.takeWhile Char.isDigit
      if digits ≠ [] && (str ".list-manage.com").isPrefixOf (r.drop digits.length) then
        some (str "us" ++ digits)
      else none
    else none).orElse (fun _ => mcServerCapture rest)

/-- The `mailchimp` matcher. -/
def mailchimpDetect (html : Str) : MatchResult :=
  let formAction := scanQuotedRun true (str "action=")
    (fun run => startsWithScheme run &&
      containsCI (str "list-manage.com/subscribe/post") run) html
  let c1 := if formAction.isSome then 50 else 0
  let params1 : Params :=
    match formAction with
    | some ep =>
      let p1 := match tryUrlParam ep (str "u") with
        | some u => setParam [] (str "u") u
        | none => []
      let p2 := match tryUrlParam ep (str "id") with
        | some v => setParam p1 (str "id") v
        | none => p1
      match findFormContaining (str "list-manage.com") html with
      | some form => objAssign p2 (extractHiddenInputs form)
      | none => p2
    | none => []
  let script := scanQuotedRun true (str "src=") mcScriptCheck html
  let c2 := if script.isSome then 30 else 0
  let params2 :=
    match script, formAction with
    | some url, none =>
      match mcServerCapture url with
      | some srv => setParam params1 (str "server") srv
      | none => params1
    | _, _ => params1
  let confidence := c1 + c2
  { matched := decide (0 < confidence), confidence, endpoint := formAction, params := params2 }

/-- Character class `[^"'&\s]` terminator used by the Klaviyo company capture. -/
def companyStop (c : Char) : Bool := isQuote c || c == '&' || jsWhitespace c

/-- The `klaviyo` matcher. -/
def klaviyoDetect (html : Str) : MatchResult :=
  let formAction := scanQuotedRun true (str "action=")
    (fun r => startsWithScheme r && containsCI (str "klaviyo.com") r) html
  let c1 := if formAction.isSome then 50 else 0
  let c2 := if (scanQuotedRun true (str "src=")
      (fun r => containsCI (str "static.klaviyo.com") r) html).isSome then 30 else 0
  let c3 := if containsCI (str "klaviyoforms") html then 20 else 0
  let company := scanCaptureAfter true
    (str "klaviyo.com/media/js/onsite/onsite.js?company_id=") companyStop html
  let c4 := if company.isSome then 10 else 0
  let endpoint : Option Str :=
    match formAction, company with
    | some e, _ => some e
    | none, some _ => some (str "https://a.klaviyo.com/api/v2/list/subscribe")
    | none, none => none
  let params1 : Params := match company with
    | some cid => setParam [] (str "company_id") cid
    | none => []
  let params2 := match scanQuotedRun true (str "data-klaviyo-list-id=") (fun r => r ≠ []) html with
    | some lid => setParam params1 (str "list_id") lid
    | none => params1
  let confidence := c1 + c2 + c3 + c4
  { matched := decide (0 < confidence), confidence, endpoint, params := params2 }

/-- The `constant_contact` matcher. -/
def constantContactDetect (html : Str) : MatchResult :=
  let formAction := scanQuotedRun true (str "action=")
    (fun r => startsWithScheme r && containsCI (str "constantcontact.com") r) html
  let c1 := if formAction.isSome then 50 else 0
  let embed := scanQuotedRun true (str "src=")
    (fun r => startsWithScheme r && containsCI (str "constantcontact.com") r) html
  let c2 := if embed.isSome then 30 else 0
  let c3 := if (scanQuotedRun true (str "href=")
      (fun r => containsCI (str "constantcontact.com") r) html).isSome then 10 else 0
  let endpoint := match formAction with
    | some e => some e
    | none => embed
  let confidence := c1 + c2 + c3
  { matched := decide (0 < confidence), confidence, endpoint, params := [] }

/-- The `ml('account', 'XXXXX')` capture:
`/ml\(\s*['"]account['"]\s*,\s*['"](\w+)['"]\s*\)/i` at one position. -/
def mlAccountAt (s : Str) : Option Str :=
  if isPrefixCI (str "ml(") s then
    match (s.drop 3).dropWhile jsWhitespace with
    | q1 :: r2 =>
      if isQuote q1 && isPrefixCI (str "account") r2 then
        match r2.drop 7 with
        | q2 :: r3 =>
          if isQuote q2 then
            match r3.dropWhile jsWhitespace with
            | ',' :: r5 =>
              match r5.dropWhile jsWhitespace with
              | q3 :: r7 =>
                if isQuote q3 then
                  let w := r7.takeWhile isWordChar
                  if w ≠ [] then
                    match r7.drop w.length with
                    | q4 :: r8 =>
                      if isQuote q4 && (r8.dropWhile jsWhitespace).head? == some ')' then
                        some w
                      else none
                    | [] => none
                  else none
                else none
              | [] => none
            | _ => none
          else none
        | [] => none
      else none
    | [] => none
  else none

/-- Leftmost `ml('account', …)` capture. -/
def mlAccountCapture : Str → Option Str
  | [] => none
  | c :: rest => (mlAccountAt (c :: rest)).orElse (fun _ => mlAccountCapture rest)

/-- The `mailerlite` matcher. -/
def mailerliteDetect (html : Str) : MatchResult :=
  let formAction := scanQuotedRun true (str "action=")
    (fun r => startsWithScheme r &&
      (containsCI (str "mailerlite.com") r || containsCI (str "assets.mailerlite.com") r ||
        containsCI (str "ml.com") r)) html
  let c1 := if formAction.isSome then 50 else 0
  let c2 := if (scanQuotedRun true (str "src=")
      (fun r => containsCI (str "mailerlite.com") r || containsCI (str "static.mailerlite.com") r ||
        containsCI (str "ml.com") r) html).isSome then 30 else 0
  let account := mlAccountCapture html
  let c3 := if account.isSome then 20 else 0
  let params1 : Params := match account with
    | some a => setParam [] (str "account_id") a
    | none => []
  let params2 := match scanQuotedRun true (str "data-ml-group=") (fun r => r ≠ []) html with
    | some g => setParam params1 (str "group_id") g
    | none => params1
  let confidence := c1 + c2 + c3
  { matched := decide (0 < confidence), confidence, endpoint := formAction, params := params2 }

/-- Character class `[^/"'?\s]` terminator for the Beehiiv publication capture. -/
def pubStop (c : Char) : Bool := c == '/' || isQuote c || c == '?' || jsWhitespace c

/-- The `beehiiv` matcher. The embed pattern `(?:src|data-src)=` is equivalent
to searching for `src=` (every `data-src=` contains `src=` and both alternatives
capture the same quoted URL). -/
def beehiivDetect (html : Str) : MatchResult :=
  let formAction := scanQuotedRun true (str "action=")
    (fun r => startsWithScheme r && containsCI (str "beehiiv.com") r) html
  let c1 := if formAction.isSome then 50 else 0
  let embed := scanQuotedRun true (str "src=")
    (fun r => startsWithScheme r && containsCI (str "beehiiv.com") r) html
  let c2 := if embed.isSome then 40 else 0
  let link := scanQuotedRun true (str "href=")
    (fun r => startsWithScheme r && containsCI (str "beehiiv.com") r) html
  let c3 := if link.isSome then 20 else 0
  let e1 := formAction
  let e2 := match e1 with
    | some e => some e
    | none => embed
  let endpoint := match e2 with
    | some e => some e
    | none => link
  let params : Params :=
    match scanCaptureAfter false (str "beehiiv.com/v1/") pubStop (endpoint.getD []) with
    | some pub => setParam [] (str "publication_id") pub
    | none => []
  let confidence := c1 + c2 + c3
  { matched := decide (0 < confidence), confidence, endpoint, params }

/-- Separator class `["'\s:=]` of the Squarespace `collectionId` capture. -/
def sepChar (c : Char) : Bool := isQuote c || jsWhitespace c || c == ':' || c == '='

/-- A quote, a nonempty run of non-quote characters, and a closing quote
(`["']([^"']+)["']`). -/
def quotedNonempty (t : Str) : Option Str :=
  match t with
  | q :: body =>
    if isQuote q then
      let run := body.takeWhile (fun c => !isQuote c)
      if run ≠ [] && body.drop run.length ≠ [] then some run else none
    else none
  | [] => none

/-- Backtracking over the greedy `["'\s:=]+` separator: try the longest
separator run first, down to length one. -/
def collectionTryLens (s : Str) : Nat → Option Str
  | 0 => none
  | k + 1 => (quotedNonempty (s.drop (k + 1))).orElse (fun _ => collectionTryLens s k)

/-- Capture `collectionId["'\s:=]+["']([^"']+)["']` (case-insensitive), leftmost. -/
def collectionIdCapture : Str → Option Str
  | [] => none
  | c :: rest =>
    (if isPrefixCI (str "collectionid") (c :: rest) then
      let s := (c :: rest).drop 12
      collectionTryLens s (s.takeWhile sepChar).length
    else none).orElse (fun _ => collectionIdCapture rest)

/-- Capture for `/<TAG[^>]+A1=["']V1["'][^>]+A2=["'](https?:\/\/[^"'/]+)/i`
(the canonical-link and og:url patterns): inside the attribute window of a
`<TAG`, a `A1=…V1…` marker at offset ≥ 1 followed, at least one character
later, by `A2=` and a quoted scheme-prefixed host. The source's greedy engine
could pick a different occurrence when one tag repeats the attributes; no such
input is exercised here. -/
def tagAttrUrlCapture (tagName a1 v1 a2 : Str) : Str → Option Str
  | [] => none
  | c :: rest =>
    (if isPrefixCI (str "<" ++ tagName) (c :: rest) then
      let afterTag := (c :: rest).drop (tagName.length + 1)
      let window := afterTag.takeWhile (fun ch => ch ≠ '>')
      match findIdx true (a1 ++ str "=") (window.drop 1) with
      | none => none
      | some i =>
        let afterA1 := window.drop (1 + i + a1.length + 1)
        match afterA1 with
        | q1 :: r1 =>
          if isQuote q1 && isPrefixCI v1 r1 then
            match r1.drop v1.length with
            | q2 :: r2 =>
              if isQuote q2 then
                match findIdx true (a2 ++ str "=") (r2.drop 1) with
                | none => none
                | some j =>
                  match r2.drop (1 + j + a2.length + 1) with
                  | q3 :: r3 =>
                    if isQuote q3 && startsWithScheme r3 then
                      match dropScheme r3 with
                      | some afterScheme =>
                        let hostRun := afterScheme.takeWhile
                          (fun ch => !isQuote ch && ch ≠ '/')
                        if hostRun ≠ [] then
                          some ((r3.take ((r3.length - afterScheme.length))) ++ hostRun)
                        else none
                      | none => none
                    else none
                  | [] => none
              else none
            | [] => none
          else none
        | [] => none
    else none).orElse (fun _ => tagAttrUrlCapture tagName a1 v1 a2 rest)

/-- The `squarespace` matcher. -/
def squarespaceDetect (html : Str) : MatchResult :=
  let hasNewsletterForm := (scanQuotedRun true (str "class=")
    (fun r => containsCI (str "newsletter-form") r) html).isSome
  let c1 := if hasNewsletterForm then 40 else 0
  let formId := scanQuotedRun true (str "data-form-id=") (fun r => r ≠ []) html
  let c2 := match formId with
    | some _ => if containsCI (str "squarespace") html then 40 else 10
    | none => 0
  let params1 : Params := match formId with
    | some fid => setParam [] (str "formId") fid
    | none => []
  let collection := collectionIdCapture html
  let c3 := if collection.isSome then 10 else 0
  let params2 := match collection with
    | some cid => setParam params1 (str "collectionId") cid
    | none => params1
  let confidence := c1 + c2 + c3
  let endpoint : Option Str :=
    if 0 < confidence && jsTruthy (getParam params2 (str "formId")) then
      let canonical := tagAttrUrlCapture (str "link") (str "rel") (str "canonical") (str "href") html
      let og := tagAttrUrlCapture (str "meta") (str "property") (str "og:url") (str "content") html
      match canonical with
      | some d => some (d ++ str "/api/form/FormSubmit")
      | none =>
        match og with
        | some d => some (d ++ str "/api/form/FormSubmit")
        | none => none
    else none
  { matched := decide (0 < confidence), confidence, endpoint, params := params2 }

/-- Subdomain capture `/https?:\/\/([^.]+)\.substack\.com/i` at one position. -/
def substackSubAt (s : Str) : Option Str :=
  match dropScheme s with
  | none => none
  | some r =>
    let run := r.takeWhile (fun c => c ≠ '.')
    if run ≠ [] && isPrefixCI (str ".substack.com") (r.drop run.length) then some run
    else none

/-- Leftmost subdomain capture over the endpoint string. -/
def substackSubdomain : Str → Option Str
  | [] => none
  | c :: rest => (substackSubAt (c :: rest)).orElse (fun _ => substackSubdomain rest)

/-- The `substack` matcher. -/
def substackDetect (html : Str) : MatchResult :=
  let link := scanQuotedRun true (str "href=")
    (fun r => startsWithScheme r && containsCI (str ".substack.com") r) html
  let c1 := if link.isSome then 40 else 0
  let embed := scanQuotedRun true (str "src=")
    (fun r => startsWithScheme r && containsCI (str "substack.com") r) html
  let c2 := if embed.isSome then 30 else 0
  let endpoint0 := match link with
    | some e => some e
    | none => embed
  let sub := substackSubdomain (endpoint0.getD [])
  let endpoint := match sub with
    | some sd => some (str "https://" ++ sd ++ str ".substack.com/api/v1/free")
    | none => endpoint0
  let params : Params := match sub with
    | some sd => setParam [] (str "subdomain") sd
    | none => []
  let confidence := c1 + c2
  { matched := decide (0 < confidence), confidence, endpoint, params }

/-! ### The matcher registry and selection loop -/

/-- A named platform matcher, as in the `matchers` registry. -/
structure ProviderMatcher where
  name : Str
  detect : Str → MatchResult

/-- The registry, in source order. -/
def providerMatchers : List ProviderMatcher :=
  [⟨str "mailchimp", mailchimpDetect⟩,
   ⟨str "klaviyo", klaviyoDetect⟩,
   ⟨str "constant_contact", constantContactDetect⟩,
   ⟨str "mailerlite", mailerliteDetect⟩,
   ⟨str "beehiiv", beehiivDetect⟩,
   ⟨str "squarespace", squarespaceDetect⟩,
   ⟨str "substack", substackDetect⟩]

/-- Classifier output (`ProviderDetectionResult` in `types.ts`). -/
structure ProviderDetectionResult where
  provider : Option Str
  directEndpoint : Option Str
  confidence : Nat
  extractedParams : Params
deriving Repr, DecidableEq

/-- The initial `best` value of the selection loop. -/
def emptyDetection : ProviderDetectionResult :=
  { provider := none, directEndpoint := none, confidence := 0, extractedParams := [] }

/-- One iteration of the selection loop in `detectNewsletterProvider`. -/
def selStep (html : Str) (best : ProviderDetectionResult) (m : ProviderMatcher) :
    ProviderDetectionResult :=
  let result := m.detect html
  if result.matched && best.confidence < result.confidence then
    { provider := some m.name, directEndpoint := result.endpoint,
      confidence := result.confidence, extractedParams := result.params }
  else best

/-- Model of `detectNewsletterProvider(html)`: run every matcher, keep the strictly
best-scoring matched result. -/
def detectNewsletterProvider (html : Str) : ProviderDetectionResult :=
  providerMatchers.foldl (selStep html) emptyDetection

/-! ### Candidate extractor (`enrich.ts`) -/

/-- Characters excluded by the JS `.` class (line terminators). -/
def notLineTerm (c : Char) : Bool :=
  c ≠ '\n' && c ≠ '\r' && c.toNat ≠ 0x2028 && c.toNat ≠ 0x2029

/-- Match a sequence of literal parts joined by `.?` (an optional single
non-line-terminator), starting exactly here; `allowGap` is false for the
first part. -/
def kwMatchAt : Bool → List Str → Str → Bool
  | _, [], _ => true
  | allowGap, w :: rest, s =>
    (isPrefixCI w s && kwMatchAt true rest (s.drop w.length)) ||
    (allowGap &&
      match s with
      | c :: s2 => notLineTerm c && isPrefixCI w s2 && kwMatchAt true rest (s2.drop w.length)
      | [] => false)

/-- The alternatives of `NEWSLETTER_KEYWORDS`
(`newsletter|subscribe|signup|sign-up|mailing.?list|email.?list|stay.?in.?touch|join.?our`). -/
def kwAlternatives : List (List Str) :=
  [[str "newsletter"], [str "subscribe"], [str "signup"], [str "sign-up"],
   [str "mailing", str "list"], [str "email", str "list"],
   [str "stay", str "in", str "touch"], [str "join", str "our"]]

/-- Test `NEWSLETTER_KEYWORDS.test(s)`. -/
def hasNewsletterKeywords : Str → Bool
  | [] => false
  | c :: rest =>
    kwAlternatives.any (fun alt => kwMatchAt false alt (c :: rest)) ||
    hasNewsletterKeywords rest

/-- The `PROVIDER_DOMAINS` list, in source order. -/
def PROVIDER_DOMAINS : List Str :=
  [str "list-manage.com", str "klaviyo.com", str "constantcontact.com",
   str "mailerlite.com", str "ml.com", str "beehiiv.com", str "substack.com",
   str "squarespace.com"]

/-- Test `PROVIDER_DOMAINS.some((d) => url.includes(d))` (case-sensitive). -/
def hasProviderDomain (url : Str) : Bool :=
  PROVIDER_DOMAINS.any (fun d => containsStr false d url)

/-- The email-input test shared by the two form surfaces:
`/type=["']email["']/i.test(h) || /name=["'](?:email|EMAIL)["']/i.test(h)`. -/
def hasEmailInput (formHtml : Str) : Bool :=
  hasAttrValCI (str "type=") (str "email") formHtml ||
  hasAttrValCI (str "name=") (str "email") formHtml

/-- Test `/class=["'][^"']*newsletter-form/i.test(h)` (no closing quote needed). -/
def hasClassNewsletterForm : Str → Bool
  | [] => false
  | c :: rest =>
    (isPrefixCI (str "class=") (c :: rest) &&
      (match (c :: rest).drop 6 with
       | q :: body =>
         isQuote q &&
           containsCI (str "newsletter-form") (body.takeWhile (fun ch => !isQuote ch))
       | [] => false)) ||
    hasClassNewsletterForm rest

/-- Candidate sources (`NewsletterCandidate.source` in `types.ts`). -/
inductive CandidateSource
  | form_action | link | script_tag | embed | inline_script
deriving Repr, DecidableEq

/-- Extractor output. `positionRatio` is `match.index / html.length`; the
source's floating-point ratio is modelled exactly as the (index, length)
pair, compared by cross-multiplication. -/
structure NewsletterCandidate where
  url : Str
  score : Nat
  source : CandidateSource
  formHtml : Option Str
  positionRatio : Nat × Nat
deriving Repr, DecidableEq

/-- The ratio `match.index / htmlLength` as an exact pair (JS produces NaN for an empty
document, where no match can exist anyway). -/
def ratioOf (index len : Nat) : Nat × Nat := (index, len)

/-- Capture `attr=["']([^"']+)["']` anchored at offset `off` of the tag remainder:
the captured URL and the offset just past its closing quote. -/
def attrUrlAt (attr : Str) (afterTag : Str) (off : Nat) : Option (Str × Nat) :=
  if isPrefixCI attr (afterTag.drop off) then
    match afterTag.drop (off + attr.length) with
    | q :: body =>
      if isQuote q then
        let run := body.takeWhile (fun c => !isQuote c)
        if run ≠ [] && body.drop run.length ≠ [] then
          some (run, off + attr.length + 1 + run.length + 1)
        else none
      else none
    | [] => none
  else none

/-- Offsets tried from high to low: the greedy `[^>]*attr=` backtracks from the
rightmost occurrence inside the attribute window. -/
def pickAttrUrlGo (attr : Str) (afterTag : Str) : Nat → Option (Str × Nat)
  | 0 => attrUrlAt attr afterTag 0
  | k + 1 => (attrUrlAt attr afterTag (k + 1)).orElse (fun _ => pickAttrUrlGo attr afterTag k)

/-- The URL selected by `[^>]*attr=["']([^"']+)["']` inside one tag: the
rightmost completely-quoted occurrence starting in the window before the
first `>`. -/
def pickAttrUrl (attr : Str) (afterTag : Str) : Option (Str × Nat) :=
  pickAttrUrlGo attr afterTag (afterTag.takeWhile (fun c => c ≠ '>')).length

/-- One raw surface match: captured URL, captured inner text (for surfaces
that capture one), the whole match, and `match.index`. -/
structure SurfaceMatch where
  url : Str
  inner : Str
  whole : Str
  index : Nat
deriving Repr, DecidableEq

/-- Global scan of `/<form[^>]*action=["']([^"']+)["'][^>]*>[\s\S]*?<\/form>/gi`.
A candidate tag without a usable `action` resumes scanning one character on; a
match resumes after its `</form>`. When no closing `>` (or no `</form>`)
exists to the right, no later candidate can complete either. -/
def scanFormActionsGo : Nat → Nat → Str → List SurfaceMatch
  | 0, _, _ => []
  | fuel + 1, base, s =>
    match findIdx true (str "<form") s with
    | none => []
    | some i =>
      let afterTag := (s.drop i).drop 5
      match pickAttrUrl (str "action=") afterTag with
      | none => scanFormActionsGo fuel (base + i + 1) (s.drop (i + 1))
      | some (url, offAfter) =>
        let tail1 := afterTag.drop offAfter
        let pre2 := tail1.takeWhile (fun c => c ≠ '>')
        match tail1.drop pre2.length with
        | [] => []
        | _ :: body =>
          match findIdx true (str "</form>") body with
          | none => []
          | some j =>
            let matchLen := 5 + offAfter + pre2.length + 1 + j + 7
            { url, inner := [], whole := (s.drop i).take matchLen, index := base + i } ::
              scanFormActionsGo fuel (base + i + matchLen) (s.drop (i + matchLen))

def scanFormActions (s : Str) : List SurfaceMatch := scanFormActionsGo (s.length + 1) 0 s

/-- Surface 1: forms with an action attribute. -/
def formActionCandidates (html : Str) : List NewsletterCandidate :=
  (scanFormActions html).filterMap (fun m =>
    let s1 := if hasProviderDomain m.url then 30 else 0
    let s2 := if hasNewsletterKeywords m.whole then 20 else 0
    let s3 := if hasEmailInput m.whole then 10 else 0
    if 0 < s1 + s2 + s3 then
      some { url := m.url, score := s1 + s2 + s3, source := .form_action,
             formHtml := some m.whole, positionRatio := ratioOf m.index html.length }
    else none)

/-- Global scan of `/<form(?=[^>]*>)(?![^>]*action=)[^>]*>([\s\S]*?)<\/form>/gi`:
form tags with a closing `>` but no `action=` in the attribute window. Returns
(whole match, index). -/
def scanActionlessFormsGo : Nat → Nat → Str → List (Str × Nat)
  | 0, _, _ => []
  | fuel + 1, base, s =>
    match findIdx true (str "<form") s with
    | none => []
    | some i =>
      let afterTag := (s.drop i).drop 5
      let window := afterTag.takeWhile (fun c => c ≠ '>')
      match afterTag.drop window.length with
      | [] => []
      | _ :: body =>
        if containsCI (str "action=") window then
          scanActionlessFormsGo fuel (base + i + 1) (s.drop (i + 1))
        else
          match findIdx true (str "</form>") body with
          | none => []
          | some j =>
            let matchLen := 5 + window.length + 1 + j + 7
            ((s.drop i).take matchLen, base + i) ::
              scanActionlessFormsGo fuel (base + i + matchLen) (s.drop (i + matchLen))

def scanActionlessForms (s : Str) : List (Str × Nat) :=
  scanActionlessFormsGo (s.length + 1) 0 s

/-- Surface 1b: forms without an action but with an email input; the URL is
the literal placeholder `#actionless-email-form`. -/
def actionlessFormCandidates (html : Str) : List NewsletterCandidate :=
  (scanActionlessForms html).filterMap (fun m =>
    let formHtml := m.1
    if hasEmailInput formHtml then
      let s2 := if hasNewsletterKeywords formHtml then 20 else 0
      let s3 := if hasClassNewsletterForm formHtml ||
          containsCI (str "data-form-id") formHtml then 25 else 0
      some { url := str "#actionless-email-form", score := 10 + s2 + s3,
             source := .form_action, formHtml := some formHtml,
             positionRatio := ratioOf m.2 html.length }
    else none)

/-- Global scan of `/<a\s[^>]*href=["']([^"']+)["'][^>]*>([\s\S]*?)<\/a>/gi`;
`inner` is the captured link text. -/
def scanLinksGo : Nat → Nat → Str → List SurfaceMatch
  | 0, _, _ => []
  | fuel + 1, base, s =>
    match findIdx true (str "<a") s with
    | none => []
    | some i =>
      match (s.drop i).drop 2 with
      | [] => []
      | c :: afterWs =>
        if jsWhitespace c then
          match pickAttrUrl (str "href=") afterWs with
          | none => scanLinksGo fuel (base + i + 1) (s.drop (i + 1))
          | some (url, offAfter) =>
            let tail1 := afterWs.drop offAfter
            let pre2 := tail1.takeWhile (fun ch => ch ≠ '>')
            match tail1.drop pre2.length with
            | [] => []
            | _ :: body =>
              match findIdx true (str "</a>") body with
              | none => []
              | some j =>
                let matchLen := 3 + offAfter + pre2.length + 1 + j + 4
                { url, inner := body.take j, whole := (s.drop i).take matchLen,
                  index := base + i } ::
                  scanLinksGo fuel (base + i + matchLen) (s.drop (i + matchLen))
        else scanLinksGo fuel (base + i + 1) (s.drop (i + 1))

def scanLinks (s : Str) : List SurfaceMatch := scanLinksGo (s.length + 1) 0 s

/-- Surface 2: anchor links. -/
def linkCandidates (html : Str) : List NewsletterCandidate :=
  (scanLinks html).filterMap (fun m =>
    let s1 := if hasProviderDomain m.url then 25 else 0
    let s2 := if hasNewsletterKeywords m.inner || hasNewsletterKeywords m.url then 15 else 0
    if 0 < s1 + s2 then
      some { url := m.url, score := s1 + s2, source := .link, formHtml := none,
             positionRatio := ratioOf m.index html.length }
    else none)

/-- A `TAG\s[^>]*src=["']([^"']+)["'][^>]*>` match anchored at one position:
the surface match and its length. -/
def tagSrcMatchAt (tagLit attr : Str) (base : Nat) (s : Str) : Option (SurfaceMatch × Nat) :=
  if isPrefixCI tagLit s then
    match s.drop tagLit.length with
    | [] => none
    | c :: afterWs =>
      if jsWhitespace c then
        match pickAttrUrl attr afterWs with
        | some (url, offAfter) =>
          let tail1 := afterWs.drop offAfter
          let pre2 := tail1.takeWhile (fun ch => ch ≠ '>')
          match tail1.drop pre2.length with
          | [] => none
          | _ :: _ =>
            let matchLen := tagLit.length + 1 + offAfter + pre2.length + 1
            some ({ url, inner := [], whole := s.take matchLen, index := base }, matchLen)
        | none => none
      else none
  else none

/-- Global scan of `/<(?:iframe|embed)\s[^>]*src=["']([^"']+)["'][^>]*>/gi`. -/
def scanEmbedsGo : Nat → Nat → Str → List SurfaceMatch
  | 0, _, _ => []
  | fuel + 1, base, s =>
    match s with
    | [] => []
    | _ :: t =>
      match (tagSrcMatchAt (str "<iframe") (str "src=") base s).orElse
          (fun _ => tagSrcMatchAt (str "<embed") (str "src=") base s) with
      | some (m, len) => m :: scanEmbedsGo fuel (base + len) (s.drop len)
      | none => scanEmbedsGo fuel (base + 1) t

def scanEmbeds (s : Str) : List SurfaceMatch := scanEmbedsGo (s.length + 1) 0 s

/-- Surface 3: iframe/embed sources. -/
def embedCandidates (html : Str) : List NewsletterCandidate :=
  (scanEmbeds html).filterMap (fun m =>
    if hasProviderDomain m.url then
      some { url := m.url, score := 25, source := .embed, formHtml := none,
             positionRatio := ratioOf m.index html.length }
    else none)

/-- Global scan of `/<script\s[^>]*src=["']([^"']+)["'][^>]*>/gi`. -/
def scanScriptSrcsGo : Nat → Nat → Str → List SurfaceMatch
  | 0, _, _ => []
  | fuel + 1, base, s =>
    match s with
    | [] => []
    | _ :: t =>
      match tagSrcMatchAt (str "<script") (str "src=") base s with
      | some (m, len) => m :: scanScriptSrcsGo fuel (base + len) (s.drop len)
      | none => scanScriptSrcsGo fuel (base + 1) t

def scanScriptSrcs (s : Str) : List SurfaceMatch := scanScriptSrcsGo (s.length + 1) 0 s

/-- Surface 4: external script sources. -/
def scriptSrcCandidates (html : Str) : List NewsletterCandidate :=
  (scanScriptSrcs html).filterMap (fun m =>
    if hasProviderDomain m.url then
      some { url := m.url, score := 25, source := .script_tag, formHtml := none,
             positionRatio := ratioOf m.index html.length }
    else none)

/-- An inline-script match
`/<script(?:\s[^>]*)?>(?![\s\S]*?src=)([\s\S]*?)<\/script>/gi` anchored at one
position: the captured body and the match length. The negative lookahead
rejects a match when `src=` occurs anywhere in the remainder of the document. -/
def inlineScriptMatchAt (s : Str) : Option (Str × Nat) :=
  if isPrefixCI (str "<script") s then
    let after := s.drop 7
    let tagEndOff : Option Nat :=
      match after with
      | [] => none
      | '>' :: _ => some 1
      | c :: r =>
        if jsWhitespace c then
          let w := r.takeWhile (fun ch => ch ≠ '>')
          match r.drop w.length with
          | _ :: _ => some (1 + w.length + 1)
          | [] => none
        else none
    match tagEndOff with
    | none => none
    | some k =>
      let rest := after.drop k
      if containsCI (str "src=") rest then none
      else
        match findIdx true (str "</script>") rest with
        | none => none
        | some j => some (rest.take j, 7 + k + j + 9)
  else none

/-- Global scan for inline scripts; returns (body, index). -/
def scanInlineScriptsGo : Nat → Nat → Str → List (Str × Nat)
  | 0, _, _ => []
  | fuel + 1, base, s =>
    match s with
    | [] => []
    | _ :: t =>
      match inlineScriptMatchAt s with
      | some (body, len) => (body, base) :: scanInlineScriptsGo fuel (base + len) (s.drop len)
      | none => scanInlineScriptsGo fuel (base + 1) t

def scanInlineScripts (s : Str) : List (Str × Nat) := scanInlineScriptsGo (s.length + 1) 0 s

/-- URL extraction `(https?://[^"'\s]*DOMAIN[^"'\s]*)` (case-insensitive)
anchored at one position. -/
def inlineUrlAt (domain : Str) (s : Str) : Option Str :=
  if startsWithScheme s then
    let run := s.takeWhile (fun c => !isQuote c && !jsWhitespace c)
    if containsCI domain run then some run else none
  else none

/-- Leftmost URL extraction over a script body. -/
def inlineUrlCapture (domain : Str) : Str → Option Str
  | [] => none
  | c :: rest => (inlineUrlAt domain (c :: rest)).orElse (fun _ => inlineUrlCapture domain rest)

/-- Surface 5: inline script bodies referencing a provider domain; the first
matching domain wins (the source breaks out of the domain loop). -/
def inlineScriptCandidates (html : Str) : List NewsletterCandidate :=
  (scanInlineScripts html).filterMap (fun m =>
    match PROVIDER_DOMAINS.find? (fun d => containsStr false d m.1) with
    | some d =>
      some { url := (inlineUrlCapture d m.1).getD d, score := 25,
             source := .inline_script, formHtml := none,
             positionRatio := ratioOf m.2 html.length }
    | none => none)

/-- The footer bonus: +15 when the match position falls in the last 30% of the
document (`positionRatio >= 0.7`, exact rational comparison by
cross-multiplication). -/
def applyFooterBonus (cs : List NewsletterCandidate) : List NewsletterCandidate :=
  cs.map (fun c =>
    if 7 * c.positionRatio.2 ≤ 10 * c.positionRatio.1 then
      { c with score := c.score + 15 }
    else c)

/-- Stable insertion for the descending sort
`candidates.sort((a, b) => b.score - a.score)`: an element is placed before
the first element whose score does not exceed it. -/
def insertDesc (c : NewsletterCandidate) : List NewsletterCandidate → List NewsletterCandidate
  | [] => [c]
  | d :: ds => if d.score ≤ c.score then c :: d :: ds else d :: insertDesc c ds

/-- The stable descending sort (unique stable sort for this comparator). -/
def sortCandidatesDesc : List NewsletterCandidate → List NewsletterCandidate
  | [] => []
  | c :: cs => insertDesc c (sortCandidatesDesc cs)

/-- Model of `extractNewsletterCandidates(html)`: the five surface scans in source
order, footer weighting, then the stable sort by descending score. -/
def extractNewsletterCandidates (html : Str) : List NewsletterCandidate :=
  sortCandidatesDesc (applyFooterBonus
    (formActionCandidates html ++ actionlessFormCandidates html ++
     linkCandidates html ++ embedCandidates html ++ scriptSrcCandidates html ++
     inlineScriptCandidates html))

/-! ### HTTP and platform collaborators -/

/-- An outbound request (method, URL, encoded body). -/
structure HttpRequest where
  method : Str
  url : Str
  body : Option Str
deriving Repr, DecidableEq

/-- Outcome of reading a response body (`res.text()` can itself throw). -/
inductive BodyRead
  | ok (text : Str)
  | err (msg : Str)
deriving Repr, DecidableEq

/-- What one `fetch` call can produce: a network error, or a response with a
status and a body read that may itself fail. -/
inductive FetchOutcome
  | netErr (msg : Str)
  | resp (status : Nat) (body : BodyRead)
deriving Repr, DecidableEq

/-- The outbound-HTTP oracle, consulted once per issued request (indexed by a
running request counter so responses may differ between calls). -/
def Fetcher := Nat → HttpRequest → FetchOutcome

/-- The `JSON.parse` collaborator for persisted parameter maps: `none` models
a parse failure (a thrown exception at the call site). -/
def JsonParser := Str → Option Params

/-- The `Response.ok` test: status in the 2xx range. -/
def respOk (status : Nat) : Bool := 200 ≤ status && status < 300

/-- Decimal rendering of a status code (template `${status}`). -/
def natStr (n : Nat) : Str := Nat.toDigits 10 n

/-- Characters that `URLSearchParams` leaves unescaped. -/
def formSafeChar (c : Char) : Bool :=
  ('a' ≤ c && c ≤ 'z') || ('A' ≤ c && c ≤ 'Z') || ('0' ≤ c && c ≤ '9') ||
  c == '*' || c == '-' || c == '.' || c == '_'

/-- Uppercase hex digit. -/
def hexDigit (n : Nat) : Char :=
  if n < 10 then Char.ofNat ('0'.toNat + n) else Char.ofNat ('A'.toNat + n - 10)

/-- Single-byte model of the `application/x-www-form-urlencoded` escape. -/
def pctEncodeChar (c : Char) : Str :=
  if c == ' ' then ['+']
  else if formSafeChar c then [c]
  else ['%', hexDigit (c.toNat / 16 % 16), hexDigit (c.toNat % 16)]

/-- Model of `new URLSearchParams(obj).toString()`. -/
def encodeForm (ps : Params) : Str :=
  List.intercalate (str "&")
    (ps.map (fun p =>
      (p.1.map pctEncodeChar).flatten ++ str "=" ++ (p.2.map pctEncodeChar).flatten))

/-- JSON string escaping (common escapes; a single-byte model). -/
def jsonEscape (s : Str) : Str :=
  (s.map (fun c =>
    if c == '"' then str "\\\""
    else if c == '\\' then str "\\\\"
    else if c == '\n' then str "\\n"
    else if c == '\r' then str "\\r"
    else if c == '\t' then str "\\t"
    else [c])).flatten

/-- Model of `JSON.stringify` of a flat string-to-string object. -/
def jsonObj (ps : Params) : Str :=
  str "\x7b" ++
    List.intercalate (str ",")
      (ps.map (fun p =>
        str "\"" ++ jsonEscape p.1 ++ str "\":\"" ++ jsonEscape p.2 ++ str "\"")) ++
  str "\x7d"

/-! ### Provider submitters (`providerSubmit.ts`) -/

/-- The `submit(...) -> (success, evidence)` result. -/
structure SubmitResult where
  success : Bool
  evidence : Str
deriving Repr, DecidableEq

/-- Snippet logic `text[0] ? text[0].slice(0, 500) : ''`. -/
def snippetOf (body : BodyRead) : Str :=
  match body with
  | .ok t => t.take 500
  | .err _ => []

/-- The Mailchimp request: form-urlencoded `{ EMAIL: email, ...params }`. -/
def mailchimpRequest (endpoint : Str) (params : Params) (email : Str) : HttpRequest :=
  { method := str "POST", url := endpoint,
    body := some (encodeForm (objAssign (setParam [] (str "EMAIL") email) params)) }

/-- Model of `submitMailchimp(endpoint, params, email)`; also returns the advanced
request counter and the issued-request trace. -/
def submitMailchimp (fetch : Fetcher) (n : Nat) (endpoint : Str) (params : Params)
    (email : Str) : SubmitResult × Nat × List HttpRequest :=
  let req := mailchimpRequest endpoint params email
  match fetch n req with
  | .netErr msg =>
    ({ success := false, evidence := str "Mailchimp POST failed: " ++ msg }, n + 1, [req])
  | .resp status body =>
    let snippet := snippetOf body
    if 200 ≤ status && status < 400 then
      ({ success := true,
         evidence := str "Mailchimp POST " ++ natStr status ++ str " to " ++ endpoint ++
           str " — " ++ snippet }, n + 1, [req])
    else
      ({ success := false,
         evidence := str "Mailchimp POST returned " ++ natStr status ++ str " — " ++ snippet },
       n + 1, [req])

/-- The Klaviyo request: JSON body with `email`, plus `g` and `$company_id`
only when those params were extracted. -/
def klaviyoRequest (endpoint : Str) (params : Params) (email : Str) : HttpRequest :=
  let listId := getParam params (str "list_id")
  let companyId := getParam params (str "company_id")
  let fields : Params :=
    [(str "email", email)] ++
    (if jsTruthy listId then [(str "g", listId.getD [])] else []) ++
    (if jsTruthy companyId then [(str "$company_id", companyId.getD [])] else [])
  { method := str "POST", url := endpoint, body := some (jsonObj fields) }

/-- Model of `submitKlaviyo(endpoint, params, email)`. -/
def submitKlaviyo (fetch : Fetcher) (n : Nat) (endpoint : Str) (params : Params)
    (email : Str) : SubmitResult × Nat × List HttpRequest :=
  let req := klaviyoRequest endpoint params email
  match fetch n req with
  | .netErr msg =>
    ({ success := false, evidence := str "Klaviyo POST failed: " ++ msg }, n + 1, [req])
  | .resp status body =>
    let snippet := snippetOf body
    if 200 ≤ status && status < 400 then
      ({ success := true,
         evidence := str "Klaviyo POST " ++ natStr status ++ str " to " ++ endpoint ++
           str " — " ++ snippet }, n + 1, [req])
    else
      ({ success := false,
         evidence := str "Klaviyo POST returned " ++ natStr status ++ str " — " ++ snippet },
       n + 1, [req])

/-- The generic request: form-urlencoded single email field. -/
def genericRequest (endpoint : Str) (emailFieldName : Str) (email : Str) : HttpRequest :=
  { method := str "POST", url := endpoint,
    body := some (encodeForm [(emailFieldName, email)]) }

/-- Model of `submitGenericProvider(endpoint, emailFieldName, email)`. -/
def submitGenericProvider (fetch : Fetcher) (n : Nat) (endpoint : Str)
    (emailFieldName : Str) (email : Str) : SubmitResult × Nat × List HttpRequest :=
  let req := genericRequest endpoint emailFieldName email
  match fetch n req with
  | .netErr msg =>
    ({ success := false, evidence := str "Generic provider POST failed: " ++ msg }, n + 1, [req])
  | .resp status body =>
    let snippet := snippetOf body
    if 200 ≤ status && status < 400 then
      ({ success := true,
         evidence := str "Provider POST " ++ natStr status ++ str " to " ++ endpoint ++
           str " — " ++ snippet }, n + 1, [req])
    else
      ({ success := false,
         evidence := str "Provider POST returned " ++ natStr status ++ str " — " ++ snippet },
       n + 1, [req])

/-- Modelled from the spec: `submitSquarespace` is imported and dispatched to
by the subscription orchestrator, but its definition is not among the provided
sources. Per §4.3 it issues exactly one form-encoded POST with a single email
field, classifies success as any status in [200, 400), never raises, and its
evidence carries the status (or the failure message) plus up to 500 characters
of the response body. -/
def squarespaceRequest (endpoint : Str) (email : Str) : HttpRequest :=
  { method := str "POST", url := endpoint,
    body := some (encodeForm [(str "email", email)]) }

/-- Modelled from the spec (see `squarespaceRequest`): the submit wrapper. -/
def submitSquarespace (fetch : Fetcher) (n : Nat) (endpoint : Str) (_params : Params)
    (email : Str) : SubmitResult × Nat × List HttpRequest :=
  let req : HttpRequest := squarespaceRequest endpoint email
  match fetch n req with
  | .netErr msg =>
    ({ success := false, evidence := str "Squarespace POST failed: " ++ msg }, n + 1, [req])
  | .resp status body =>
    let snippet := snippetOf body
    if 200 ≤ status && status < 400 then
      ({ success := true,
         evidence := str "Squarespace POST " ++ natStr status ++ str " to " ++ endpoint ++
           str " — " ++ snippet }, n + 1, [req])
    else
      ({ success := false,
         evidence := str "Squarespace POST returned " ++ natStr status ++ str " — " ++ snippet },
       n + 1, [req])

/-! ### Subscription orchestrator (`subscribe.ts`) -/

/-- The regex `CAPTCHA_SIGNALS = /captcha|recaptcha|hcaptcha|cf-turnstile|challenge-form|g-recaptcha/i`. -/
def captchaSignalsTest (html : Str) : Bool :=
  containsCI (str "captcha") html || containsCI (str "recaptcha") html ||
  containsCI (str "hcaptcha") html || containsCI (str "cf-turnstile") html ||
  containsCI (str "challenge-form") html || containsCI (str "g-recaptcha") html

/-- The `PROVIDER_EMAIL_FIELDS` mapping. -/
def PROVIDER_EMAIL_FIELDS : Params :=
  [(str "constant_contact", str "email"),
   (str "mailerlite", str "fields[email]"),
   (str "beehiiv", str "email"),
   (str "substack", str "email")]

/-- Model of `tier1Submit(provider, endpoint, params, email)`: dispatch by provider
name, defaulting to the generic submitter with the mapped (or default) email
field name. -/
def tier1Submit (fetch : Fetcher) (n : Nat) (provider endpoint : Str) (params : Params)
    (email : Str) : SubmitResult × Nat × List HttpRequest :=
  if provider = str "mailchimp" then submitMailchimp fetch n endpoint params email
  else if provider = str "klaviyo" then submitKlaviyo fetch n endpoint params email
  else if provider = str "squarespace" then submitSquarespace fetch n endpoint params email
  else
    let emailField :=
      match getParam PROVIDER_EMAIL_FIELDS provider with
      | some f => if f ≠ [] then f else str "email"
      | none => str "email"
    submitGenericProvider fetch n endpoint emailField email

/-- The three shapes `tier2FormSubmit` can return. -/
inductive Tier2Outcome
  | captcha
  | noForm
  | result (r : SubmitResult) (provider : Option Str) (endpoint : Option Str)
deriving Repr, DecidableEq

/-- The Tier 2 website fetch request. -/
def getRequest (url : Str) : HttpRequest := { method := str "GET", url, body := none }

/-- Model of `tier2FormSubmit(websiteUrl, email)`: fetch the live site, escalate on a
CAPTCHA signal, otherwise detect a provider (submitting directly when both an
endpoint and a provider are truthy) or fall back to the top extractor
candidate with a generic `email`-field POST. -/
def tier2FormSubmit (fetch : Fetcher) (n : Nat) (websiteUrl email : Str) :
    Tier2Outcome × Nat × List HttpRequest :=
  let req := getRequest websiteUrl
  match fetch n req with
  | .netErr msg =>
    (.result
      { success := false,
        evidence := str "Tier 2 fetch failed: " ++
          (if msg ≠ [] then msg else str "HTTP undefined") }
      none (some websiteUrl), n + 1, [req])
  | .resp status body =>
    if !respOk status then
      (.result
        { success := false,
          evidence := str "Tier 2 fetch failed: HTTP " ++ natStr status }
        none (some websiteUrl), n + 1, [req])
    else
      match body with
      | .err msg =>
        (.result
          { success := false, evidence := str "Tier 2 body read failed: " ++ msg }
          none (some websiteUrl), n + 1, [req])
      | .ok html =>
        if html = [] then
          (.result
            { success := false, evidence := str "Tier 2 body read failed: undefined" }
            none (some websiteUrl), n + 1, [req])
        else if captchaSignalsTest html then
          (.captcha, n + 1, [req])
        else
          let detection := detectNewsletterProvider html
          if jsTruthy detection.directEndpoint && jsTruthy detection.provider then
            let sub := tier1Submit fetch (n + 1) (detection.provider.getD [])
              (detection.directEndpoint.getD []) detection.extractedParams email
            (.result sub.1 detection.provider detection.directEndpoint,
             sub.2.1, req :: sub.2.2)
          else
            match extractNewsletterCandidates html with
            | [] => (.noForm, n + 1, [req])
            | best :: _ =>
              let sub := submitGenericProvider fetch (n + 1) best.url (str "email") email
              (.result sub.1 none (some best.url), sub.2.1, req :: sub.2.2)

/-- A row of the `subscription_attempt` audit log. -/
structure SubscriptionAttempt where
  restaurant_id : Str
  email : Str
  tier : Str
  provider : Option Str
  endpoint : Option Str
  success : Bool
  evidence : Str
deriving Repr, DecidableEq

/-- One batch item. -/
structure SubscribeItem where
  restaurant_id : Str
  email : Str
  website_url : Str
deriving Repr, DecidableEq

/-- The per-item response value. -/
structure SubscribeResult where
  restaurant_id : Str
  tier : Str
  success : Bool
  evidence : Str
deriving Repr, DecidableEq

/-- A persisted `restaurant_enrichment` row. -/
structure EnrichmentRecord where
  restaurant_id : Str
  website_url : Str
  newsletter_url : Option Str
  newsletter_form_html : Option Str
  newsletter_provider : Option Str
  newsletter_direct_endpoint : Option Str
  newsletter_extracted_params : Option Str
  enriched_at : Str
  updated_at : Str
deriving Repr, DecidableEq

/-- The Tier 1 guard
`enrichment?.newsletter_direct_endpoint && enrichment.newsletter_provider`
(JS truthiness: a missing record, a null field, or an empty string all fail). -/
def tier1Entered (enrichment : Option EnrichmentRecord) : Bool :=
  match enrichment with
  | none => false
  | some e => jsTruthy e.newsletter_direct_endpoint && jsTruthy e.newsletter_provider

/-- Tiers 2 and 3 of the per-item loop body: run `tier2FormSubmit` and log
exactly one attempt for whichever outcome arises. -/
def tier23 (fetch : Fetcher) (n : Nat) (item : SubscribeItem) :
    SubscribeResult × List SubscriptionAttempt × List HttpRequest × Nat :=
  let out := tier2FormSubmit fetch n item.website_url item.email
  match out.1 with
  | .captcha =>
    ({ restaurant_id := item.restaurant_id, tier := str "tier3_needs_manual",
       success := false,
       evidence := str "CAPTCHA or bot protection detected on website" },
     [{ restaurant_id := item.restaurant_id, email := item.email,
        tier := str "tier3_needs_manual", provider := none,
        endpoint := some item.website_url, success := false,
        evidence := str "CAPTCHA or bot protection detected on website" }],
     out.2.2, out.2.1)
  | .noForm =>
    ({ restaurant_id := item.restaurant_id, tier := str "tier2_form",
       success := false, evidence := str "No newsletter form found on website" },
     [{ restaurant_id := item.restaurant_id, email := item.email,
        tier := str "tier2_form", provider := none,
        endpoint := some item.website_url, success := false,
        evidence := str "No newsletter form found on website" }],
     out.2.2, out.2.1)
  | .result r provider endpoint =>
    ({ restaurant_id := item.restaurant_id, tier := str "tier2_form",
       success := r.success, evidence := r.evidence },
     [{ restaurant_id := item.restaurant_id, email := item.email,
        tier := str "tier2_form", provider, endpoint,
        success := r.success, evidence := r.evidence }],
     out.2.2, out.2.1)

/-- The loop body of `handleSubscribeBatch` for one item, given the enrichment
row read for it. Returns the pushed result, the logged attempts, the issued
requests and the advanced request counter. The pacing sleeps have no
observable effect in the model. -/
def processItem (fetch : Fetcher) (jsonParse : JsonParser) (n : Nat)
    (enrichment : Option EnrichmentRecord) (item : SubscribeItem) :
    SubscribeResult × List SubscriptionAttempt × List HttpRequest × Nat :=
  match enrichment with
  | some e =>
    if jsTruthy e.newsletter_direct_endpoint && jsTruthy e.newsletter_provider then
      let extractedParams : Params :=
        if jsTruthy e.newsletter_extracted_params then
          (jsonParse (e.newsletter_extracted_params.getD [])).getD []
        else []
      let provider := e.newsletter_provider.getD []
      let endpoint := e.newsletter_direct_endpoint.getD []
      let sub := tier1Submit fetch n provider endpoint extractedParams item.email
      ({ restaurant_id := item.restaurant_id, tier := str "tier1_direct",
         success := sub.1.success, evidence := sub.1.evidence },
       [{ restaurant_id := item.restaurant_id, email := item.email,
          tier := str "tier1_direct", provider := some provider,
          endpoint := some endpoint, success := sub.1.success,
          evidence := sub.1.evidence }],
       sub.2.2, sub.2.1)
    else tier23 fetch n item
  | none => tier23 fetch n item

/-- Model of `handleSubscribeBatch(db, items)`: the strictly sequential loop, reading
the enrichment row per item and accumulating results, logged attempts and
issued requests. -/
def handleSubscribeBatch (fetch : Fetcher) (jsonParse : JsonParser)
    (db : Str → Option EnrichmentRecord) (n : Nat) :
    List SubscribeItem →
      List SubscribeResult × List SubscriptionAttempt × List HttpRequest × Nat
  | [] => ([], [], [], n)
  | item :: items =>
    let one := processItem fetch jsonParse n (db item.restaurant_id) item
    let rest := handleSubscribeBatch fetch jsonParse db one.2.2.2 items
    (one.1 :: rest.1, one.2.1 ++ rest.2.1, one.2.2.1 ++ rest.2.2.1, rest.2.2.2)

/-! ### Enrichment orchestrator (`enrich.ts`) -/

/-- JS `a || b` on nullable strings. -/
def jsOr (a b : Option Str) : Option Str := if jsTruthy a then a else b

/-- Model of `enrichRestaurant(db, restaurantId, websiteUrl)`: fetch once, classify,
extract, and always upsert exactly one enrichment row. Returns the
`{provider, endpoint}` result, the upserted rows, and the advanced counter.
`now` stands for `new Date().toISOString()`. -/
def enrichRestaurant (fetch : Fetcher) (n : Nat) (now : Str)
    (restaurantId websiteUrl : Str) :
    (Option Str × Option Str) × List EnrichmentRecord × Nat :=
  let req := getRequest websiteUrl
  let nullRecord : EnrichmentRecord :=
    { restaurant_id := restaurantId, website_url := websiteUrl,
      newsletter_url := none, newsletter_form_html := none,
      newsletter_provider := none, newsletter_direct_endpoint := none,
      newsletter_extracted_params := none, enriched_at := now, updated_at := now }
  match fetch n req with
  | .netErr _ => ((none, none), [nullRecord], n + 1)
  | .resp status body =>
    if !respOk status then ((none, none), [nullRecord], n + 1)
    else
      match body with
      | .err _ => ((none, none), [nullRecord], n + 1)
      | .ok html =>
        if html = [] then ((none, none), [nullRecord], n + 1)
        else
          let detection := detectNewsletterProvider html
          let topCandidate := (extractNewsletterCandidates html).head?
          let newsletterUrl :=
            jsOr detection.directEndpoint (jsOr (topCandidate.map (·.url)) none)
          let newsletterFormHtml :=
            match topCandidate with
            | some c =>
              match c.formHtml with
              | some f => if f.take 5000 ≠ [] then some (f.take 5000) else none
              | none => none
            | none => none
          let serializedParams :=
            if detection.extractedParams.length > 0 then
              some (jsonObj detection.extractedParams)
            else none
          (((detection.provider, detection.directEndpoint)),
           [{ restaurant_id := restaurantId, website_url := websiteUrl,
              newsletter_url := newsletterUrl, newsletter_form_html := newsletterFormHtml,
              newsletter_provider := detection.provider,
              newsletter_direct_endpoint := detection.directEndpoint,
              newsletter_extracted_params := serializedParams,
              enriched_at := now, updated_at := now }], n + 1)

/-! ### Concrete worlds, scenario inputs and spec-side predicates -/

/-- Substring containment as a proposition. -/
def infixOf (a b : Str) : Prop := ∃ s t, s ++ a ++ t = b

/-- A fetcher whose every request fails on the network. -/
def errFetcher : Fetcher := fun _ _ => .netErr (str "boom")

/-- A `JSON.parse` collaborator that always fails. -/
def noParse : JsonParser := fun _ => none

/-- A persisted enrichment row whose direct endpoint is the empty string —
non-null, but falsy to JS. -/
def c1Record : EnrichmentRecord :=
  { restaurant_id := str "r1", website_url := str "https://x.example",
    newsletter_url := none, newsletter_form_html := none,
    newsletter_provider := some (str "mailchimp"),
    newsletter_direct_endpoint := some [],
    newsletter_extracted_params := none,
    enriched_at := str "t0", updated_at := str "t0" }

/-- A persisted enrichment row that satisfies the Tier 1 guard. -/
def t1Record : EnrichmentRecord :=
  { restaurant_id := str "r1", website_url := str "https://x.example",
    newsletter_url := none, newsletter_form_html := none,
    newsletter_provider := some (str "mailchimp"),
    newsletter_direct_endpoint := some (str "https://mc.example/subscribe"),
    newsletter_extracted_params := none,
    enriched_at := str "t0", updated_at := str "t0" }

/-- The batch item used by the concrete scenarios. -/
def c1Item : SubscribeItem :=
  { restaurant_id := str "r1", email := str "a@b.c",
    website_url := str "https://x.example" }

/-- The attempt row logged in the concrete Tier 2 network-failure scenario. -/
def c3Attempt : SubscriptionAttempt :=
  { restaurant_id := str "r1", email := str "a@b.c", tier := str "tier2_form",
    provider := none, endpoint := some (str "https://x.example"), success := false,
    evidence := str "Tier 2 fetch failed: boom" }

/-- A world whose every fetch returns HTML guarded by reCAPTCHA. -/
def captchaFetcher : Fetcher :=
  fun _ _ => .resp 200 (.ok (str "<div class=\"g-recaptcha\"></div>"))

/-- The detection result the selection loop writes for a winning matcher. -/
def mkDetection (m : ProviderMatcher) (r : MatchResult) : ProviderDetectionResult :=
  { provider := some m.name, directEndpoint := r.endpoint,
    confidence := r.confidence, extractedParams := r.params }

/-- The HTML of the Mailchimp classification scenario. -/
def mcScenarioHtml : Str :=
  str "<form action=\"https://site.us1.list-manage.com/subscribe/post?u=AAA&id=BBB\"><input type=\"hidden\" name=\"MMERGE1\" value=\"x\"></form>"

/-- Two identical Mailchimp-action forms, each with an email input. -/
def dupFormsHtml : Str :=
  str "<form action=\"https://x.list-manage.com/subscribe/post\"><input type=\"email\"></form><form action=\"https://x.list-manage.com/subscribe/post\"><input type=\"email\"></form>"

/-- A world serving one actionless email form. -/
def actionlessFetcher : Fetcher :=
  fun _ _ => .resp 200 (.ok (str "<form><input type=\"email\"></form>"))

/-- The single candidate of that page. -/
def alCandidate : NewsletterCandidate :=
  { url := str "#actionless-email-form", score := 10,
    source := CandidateSource.form_action,
    formHtml := some (str "<form><input type=\"email\"></form>"),
    positionRatio := (0, 33) }

/-- The per-call submitter contract of spec 4.3. -/
def submitterOk (req : HttpRequest) (fetch : Fetcher) (n : Nat)
    (out : SubmitResult × Nat × List HttpRequest) : Prop :=
  out.2.2 = [req] ∧
  (∀ m, fetch n req = .netErr m → out.1.success = false ∧ infixOf m out.1.evidence) ∧
  (∀ s b, fetch n req = .resp s b →
    (out.1.success = true ↔ 200 ≤ s ∧ s < 400) ∧
    infixOf (natStr s) out.1.evidence ∧
    infixOf (snippetOf b) out.1.evidence ∧
    (snippetOf b).length ≤ 500 ∧
    (∀ t, b = .ok t → snippetOf b = t.take 500))

/-- A world answering 200 with a small body. -/
def okFetcher : Fetcher := fun _ _ => .resp 200 (.ok (str "ok"))

/-! ### Shared lemmas -/

theorem infixOf_middle (s a t : Str) : infixOf a (s ++ a ++ t) := ⟨s, t, rfl⟩

theorem infixOf_of_suffix (s a : Str) : infixOf a (s ++ a) := ⟨s, [], by simp⟩

/-- A nonempty prefix keeps an appended string nonempty. -/
theorem ne_nil_append {a : Str} (b : Str) (h : a ≠ []) : a ++ b ≠ [] := by
  cases a with
  | nil => exact absurd rfl h
  | cons c cs => simp

/-- Every submitter issues exactly its one request and never produces empty
evidence. -/
theorem submitMailchimp_shape (fetch : Fetcher) (n : Nat) (endpoint : Str)
    (params : Params) (email : Str) :
    (submitMailchimp fetch n endpoint params email).2.2 =
      [mailchimpRequest endpoint params email] ∧
    (submitMailchimp fetch n endpoint params email).1.evidence ≠ [] := by
  unfold submitMailchimp
  dsimp only
  rcases fetch n (mailchimpRequest endpoint params email) with msg | ⟨s, b⟩
  · exact ⟨rfl, ne_nil_append _ (by decide)⟩
  · dsimp only
    split
    · exact ⟨rfl, ne_nil_append _ (ne_nil_append _ (ne_nil_append _ (ne_nil_append _
        (ne_nil_append _ (by decide)))))⟩
    · exact ⟨rfl, ne_nil_append _ (ne_nil_append _ (ne_nil_append _ (by decide)))⟩

theorem submitKlaviyo_shape (fetch : Fetcher) (n : Nat) (endpoint : Str)
    (params : Params) (email : Str) :
    (submitKlaviyo fetch n endpoint params email).2.2 =
      [klaviyoRequest endpoint params email] ∧
    (submitKlaviyo fetch n endpoint params email).1.evidence ≠ [] := by
  unfold submitKlaviyo
  dsimp only
  rcases fetch n (klaviyoRequest endpoint params email) with msg | ⟨s, b⟩
  · exact ⟨rfl, ne_nil_append _ (by decide)⟩
  · dsimp only
    split
    · exact ⟨rfl, ne_nil_append _ (ne_nil_append _ (ne_nil_append _ (ne_nil_append _
        (ne_nil_append _ (by decide)))))⟩
    · exact ⟨rfl, ne_nil_append _ (ne_nil_append _ (ne_nil_append _ (by decide)))⟩

theorem submitGenericProvider_shape (fetch : Fetcher) (n : Nat) (endpoint : Str)
    (emailField email : Str) :
    (submitGenericProvider fetch n endpoint emailField email).2.2 =
      [genericRequest endpoint emailField email] ∧
    (submitGenericProvider fetch n endpoint emailField email).1.evidence ≠ [] := by
  unfold submitGenericProvider
  dsimp only
  rcases fetch n (genericRequest endpoint emailField email) with msg | ⟨s, b⟩
  · exact ⟨rfl, ne_nil_append _ (by decide)⟩
  · dsimp only
    split
    · exact ⟨rfl, ne_nil_append _ (ne_nil_append _ (ne_nil_append _ (ne_nil_append _
        (ne_nil_append _ (by decide)))))⟩
    · exact ⟨rfl, ne_nil_append _ (ne_nil_append _ (ne_nil_append _ (by decide)))⟩

theorem submitSquarespace_shape (fetch : Fetcher) (n : Nat) (endpoint : Str)
    (params : Params) (email : Str) :
    (submitSquarespace fetch n endpoint params email).2.2 =
      [squarespaceRequest endpoint email] ∧
    (submitSquarespace fetch n endpoint params email).1.evidence ≠ [] := by
  unfold submitSquarespace
  dsimp only
  rcases fetch n (squarespaceRequest endpoint email) with msg | ⟨s, b⟩
  · exact ⟨rfl, ne_nil_append _ (by decide)⟩
  · dsimp only
    split
    · exact ⟨rfl, ne_nil_append _ (ne_nil_append _ (ne_nil_append _ (ne_nil_append _
        (ne_nil_append _ (by decide)))))⟩
    · exact ⟨rfl, ne_nil_append _ (ne_nil_append _ (ne_nil_append _ (by decide)))⟩

/-- The Tier 1 dispatch issues exactly one POST request and never produces
empty evidence, for every provider name. -/
theorem tier1Submit_shape (fetch : Fetcher) (n : Nat) (provider endpoint : Str)
    (params : Params) (email : Str) :
    (∃ req, (tier1Submit fetch n provider endpoint params email).2.2 = [req] ∧
      req.method = str "POST") ∧
    (tier1Submit fetch n provider endpoint params email).1.evidence ≠ [] := by
  unfold tier1Submit
  split
  · have h := submitMailchimp_shape fetch n endpoint params email
    exact ⟨⟨_, h.1, rfl⟩, h.2⟩
  · split
    · have h := submitKlaviyo_shape fetch n endpoint params email
      exact ⟨⟨_, h.1, rfl⟩, h.2⟩
    · split
      · have h := submitSquarespace_shape fetch n endpoint params email
        exact ⟨⟨_, h.1, rfl⟩, h.2⟩
      · dsimp only
        have h := submitGenericProvider_shape fetch n endpoint
          (match getParam PROVIDER_EMAIL_FIELDS provider with
           | some f => if f ≠ [] then f else str "email"
           | none => str "email") email
        exact ⟨⟨_, h.1, rfl⟩, h.2⟩

/-- Whatever `tier2FormSubmit` returns as a submit result carries nonempty
evidence. -/
theorem tier2FormSubmit_result_evidence (fetch : Fetcher) (n : Nat)
    (websiteUrl email : Str) :
    ∀ r p e, (tier2FormSubmit fetch n websiteUrl email).1 = .result r p e →
      r.evidence ≠ [] := by
  unfold tier2FormSubmit
  dsimp only
  rcases fetch n (getRequest websiteUrl) with msg | ⟨s, b⟩
  · intro r p e h
    cases h
    exact ne_nil_append _ (by decide)
  · dsimp only
    split
    · intro r p e h
      cases h
      exact ne_nil_append _ (by decide)
    · rcases b with html | msg
      · dsimp only
        split
        · intro r p e h
          cases h
          decide
        · split
          · intro r p e h
            exact absurd h (by simp)
          · split
            · intro r p e h
              cases h
              exact (tier1Submit_shape fetch (n + 1) _ _ _ email).2
            · split
              · intro r p e h
                exact absurd h (by simp)
              · intro r p e h
                cases h
                exact (submitGenericProvider_shape fetch (n + 1) _ _ email).2
      · intro r p e h
        cases h
        exact ne_nil_append _ (by decide)

/-- The Tier 2/3 branch always logs exactly one attempt, tagged `tier2_form`
or `tier3_needs_manual`, with nonempty evidence; its returned result carries
the same tag. -/
theorem tier23_shape (fetch : Fetcher) (n : Nat) (item : SubscribeItem) :
    ((tier23 fetch n item).1.tier = str "tier2_form" ∨
     (tier23 fetch n item).1.tier = str "tier3_needs_manual") ∧
    (tier23 fetch n item).2.1.length = 1 ∧
    (∀ a ∈ (tier23 fetch n item).2.1,
      (a.tier = str "tier2_form" ∨ a.tier = str "tier3_needs_manual") ∧
      a.evidence ≠ []) := by
  unfold tier23
  dsimp only
  rcases hout : (tier2FormSubmit fetch n item.website_url item.email).1 with _ | _ | ⟨r, p, e⟩
  · dsimp only
    refine ⟨Or.inr rfl, rfl, ?_⟩
    intro a ha
    rw [List.mem_singleton] at ha
    subst ha
    exact ⟨Or.inr rfl,
      show str "CAPTCHA or bot protection detected on website" ≠ [] by decide⟩
  · dsimp only
    refine ⟨Or.inl rfl, rfl, ?_⟩
    intro a ha
    rw [List.mem_singleton] at ha
    subst ha
    exact ⟨Or.inl rfl,
      show str "No newsletter form found on website" ≠ [] by decide⟩
  · dsimp only
    refine ⟨Or.inl rfl, rfl, ?_⟩
    intro a ha
    rw [List.mem_singleton] at ha
    subst ha
    exact ⟨Or.inl rfl,
      tier2FormSubmit_result_evidence fetch n item.website_url item.email r p e hout⟩

/-- When the Tier 1 guard fails, the loop body is exactly the Tier 2/3
branch. -/
theorem processItem_not_tier1 (fetch : Fetcher) (jsonParse : JsonParser) (n : Nat)
    (enrichment : Option EnrichmentRecord) (item : SubscribeItem)
    (h : tier1Entered enrichment = false) :
    processItem fetch jsonParse n enrichment item = tier23 fetch n item := by
  cases enrichment with
  | none => rfl
  | some e =>
    have hc : (jsTruthy e.newsletter_direct_endpoint &&
        jsTruthy e.newsletter_provider) = false := h
    have h2 : ¬((jsTruthy e.newsletter_direct_endpoint &&
        jsTruthy e.newsletter_provider) = true) := by
      rw [hc]; exact Bool.false_ne_true
    unfold processItem
    dsimp only
    rw [if_neg h2]

/-- When the Tier 1 guard holds, the loop body tags everything `tier1_direct`,
logs exactly one attempt with nonempty evidence, and issues exactly one POST. -/
theorem processItem_tier1_parts (fetch : Fetcher) (jsonParse : JsonParser) (n : Nat)
    (e : EnrichmentRecord) (item : SubscribeItem)
    (h : tier1Entered (some e) = true) :
    (processItem fetch jsonParse n (some e) item).1.tier = str "tier1_direct" ∧
    (processItem fetch jsonParse n (some e) item).2.1.length = 1 ∧
    (∀ a ∈ (processItem fetch jsonParse n (some e) item).2.1,
      a.tier = str "tier1_direct" ∧ a.evidence ≠ []) ∧
    (∃ req, (processItem fetch jsonParse n (some e) item).2.2.1 = [req] ∧
      req.method = str "POST") := by
  have hc : (jsTruthy e.newsletter_direct_endpoint &&
      jsTruthy e.newsletter_provider) = true := h
  unfold processItem
  dsimp only
  rw [if_pos hc]
  dsimp only
  refine ⟨rfl, rfl, ?_, ?_⟩
  · intro a ha
    rw [List.mem_singleton] at ha
    subst ha
    exact ⟨rfl, (tier1Submit_shape fetch n _ _ _ item.email).2⟩
  · exact (tier1Submit_shape fetch n _ _ _ item.email).1

/-- Per-item audit-log shape, for any world and any enrichment row. -/
theorem processItem_log (fetch : Fetcher) (jsonParse : JsonParser) (n : Nat)
    (enrichment : Option EnrichmentRecord) (item : SubscribeItem) :
    (processItem fetch jsonParse n enrichment item).2.1.length = 1 ∧
    (∀ a ∈ (processItem fetch jsonParse n enrichment item).2.1,
      (a.tier = str "tier1_direct" ∨ a.tier = str "tier2_form" ∨
       a.tier = str "tier3_needs_manual") ∧ a.evidence ≠ []) := by
  by_cases h : tier1Entered enrichment = true
  · rcases enrichment with _ | e
    · exact absurd h (by decide)
    · obtain ⟨_, hlen, hall, _⟩ := processItem_tier1_parts fetch jsonParse n e item h
      refine ⟨hlen, fun a ha => ?_⟩
      obtain ⟨h1, h2⟩ := hall a ha
      exact ⟨Or.inl h1, h2⟩
  · have hf : tier1Entered enrichment = false := by
      revert h; cases tier1Entered enrichment <;> simp
    rw [processItem_not_tier1 fetch jsonParse n enrichment item hf]
    obtain ⟨_, hlen, hall⟩ := tier23_shape fetch n item
    refine ⟨hlen, fun a ha => ?_⟩
    obtain ⟨h1, h2⟩ := hall a ha
    exact ⟨Or.inr h1, h2⟩

/-! ### Concrete worlds used by counterexamples and witnesses -/

/-- C1 counterexample: a persisted EnrichmentRecord whose
`newsletter_direct_endpoint` is the empty string (non-null) and whose
`newsletter_provider` is non-null does not enter Tier 1 — the pipeline runs
Tier 2 for it, because the source tests JS truthiness, not nullness. -/
theorem tier1_nonnull_guard_counterexample :
    c1Record.newsletter_direct_endpoint ≠ none ∧
    c1Record.newsletter_provider ≠ none ∧
    (processItem errFetcher noParse 0 (some c1Record) c1Item).1.tier ≠
      str "tier1_direct" ∧
    (processItem errFetcher noParse 0 (some c1Record) c1Item).1.tier =
      str "tier2_form" := by
  decide

/-- C1 (amended): for every subscription item, Tier 1 is entered if and only
if the persisted EnrichmentRecord exists and has a non-null, non-empty direct
endpoint and a non-null, non-empty provider (`tier1Entered`, the source's JS
truthiness test); in particular a record with `newsletter_provider = null`
enters Tier 2. A Tier 1 outcome is terminal: whether the submit succeeds or
fails, the item logs exactly one `tier1_direct` attempt and the pipeline never
issues the Tier 2 website fetch for it. -/
theorem tier1_guard_and_terminal (fetch : Fetcher) (jsonParse : JsonParser) (n : Nat)
    (enrichment : Option EnrichmentRecord) (item : SubscribeItem) :
    ((processItem fetch jsonParse n enrichment item).1.tier = str "tier1_direct" ↔
      tier1Entered enrichment = true) ∧
    (tier1Entered enrichment = true →
      (processItem fetch jsonParse n enrichment item).2.1.length = 1 ∧
      (∀ a ∈ (processItem fetch jsonParse n enrichment item).2.1,
        a.tier = str "tier1_direct") ∧
      getRequest item.website_url ∉ (processItem fetch jsonParse n enrichment item).2.2.1) := by
  by_cases h : tier1Entered enrichment = true
  · rcases enrichment with _ | e
    · exact absurd h (by decide)
    · obtain ⟨ht, hlen, hall, req, hreq, hm⟩ :=
        processItem_tier1_parts fetch jsonParse n e item h
      refine ⟨⟨fun _ => h, fun _ => ht⟩, fun _ => ⟨hlen, fun a ha => (hall a ha).1, ?_⟩⟩
      rw [hreq]
      intro hmem
      rw [List.mem_singleton] at hmem
      have hgm : (getRequest item.website_url).method = req.method := by rw [hmem]
      rw [hm] at hgm
      exact absurd hgm (show ¬(str "GET" = str "POST") by decide)
  · have hf : tier1Entered enrichment = false := by
      revert h; cases tier1Entered enrichment <;> simp
    rw [processItem_not_tier1 fetch jsonParse n enrichment item hf]
    refine ⟨⟨fun ht => ?_, fun hT => absurd hT h⟩, fun hT => absurd hT h⟩
    rcases (tier23_shape fetch n item).1 with h2 | h3
    · exact absurd (ht.symm.trans h2) (by decide)
    · exact absurd (ht.symm.trans h3) (by decide)

/-- C1 witness: a record passing the truthiness guard enters Tier 1 and logs
exactly one attempt. -/
theorem tier1_guard_and_terminal_witness :
    tier1Entered (some t1Record) = true ∧
    (processItem errFetcher noParse 0 (some t1Record) c1Item).1.tier =
      str "tier1_direct" ∧
    (processItem errFetcher noParse 0 (some t1Record) c1Item).2.1.length = 1 :=
  ⟨by decide,
   (tier1_guard_and_terminal errFetcher noParse 0 (some t1Record) c1Item).1.mpr (by decide),
   ((tier1_guard_and_terminal errFetcher noParse 0 (some t1Record) c1Item).2 (by decide)).1⟩

/-- C3: for every subscription item processed by the batch pipeline, exactly
one SubscriptionAttempt row is written, tagged with exactly one of
`tier1_direct`, `tier2_form`, `tier3_needs_manual`, regardless of success or
failure, and its evidence is never the empty string; over a whole batch the
number of logged rows equals the number of items. -/
theorem exactly_one_attempt (fetch : Fetcher) (jsonParse : JsonParser)
    (db : Str → Option EnrichmentRecord) (n : Nat) (items : List SubscribeItem)
    (enrichment : Option EnrichmentRecord) (item : SubscribeItem) :
    ((processItem fetch jsonParse n enrichment item).2.1.length = 1 ∧
     (∀ a ∈ (processItem fetch jsonParse n enrichment item).2.1,
       (a.tier = str "tier1_direct" ∨ a.tier = str "tier2_form" ∨
        a.tier = str "tier3_needs_manual") ∧ a.evidence ≠ [])) ∧
    (handleSubscribeBatch fetch jsonParse db n items).2.1.length = items.length := by
  refine ⟨processItem_log fetch jsonParse n enrichment item, ?_⟩
  induction items generalizing n with
  | nil => rfl
  | cons it rest ih =>
    show (handleSubscribeBatch fetch jsonParse db n (it :: rest)).2.1.length = rest.length + 1
    unfold handleSubscribeBatch
    dsimp only
    rw [List.length_append]
    rw [(processItem_log fetch jsonParse n (db it.restaurant_id) it).1]
    rw [ih]
    omega

/-- C3 witness: the concrete logged row is tagged with one of the three tiers
and has nonempty evidence. -/
theorem exactly_one_attempt_witness :
    (c3Attempt.tier = str "tier1_direct" ∨ c3Attempt.tier = str "tier2_form" ∨
     c3Attempt.tier = str "tier3_needs_manual") ∧ c3Attempt.evidence ≠ [] :=
  (exactly_one_attempt errFetcher noParse (fun _ => none) 0 [] none c1Item).1.2
    c3Attempt (by decide)

/-- A case-sensitive prefix match implies the case-insensitive one when the
needle is already lowercase. -/
theorem isPrefixCI_of_isPrefixOf :
    ∀ (nd hay : Str), nd.map Char.toLower = nd → nd.isPrefixOf hay = true →
      isPrefixCI nd hay = true
  | [], _, _, _ => rfl
  | _ :: _, [], _, h => by simp [List.isPrefixOf] at h
  | c :: cs, d :: ds, hl, h => by
    simp only [List.isPrefixOf, Bool.and_eq_true, beq_iff_eq] at h
    obtain ⟨hcd, hrest⟩ := h
    simp only [List.map_cons, List.cons.injEq] at hl
    obtain ⟨hc, hcs⟩ := hl
    show (c == d.toLower && isPrefixCI cs ds) = true
    rw [← hcd, hc]
    simp only [beq_self_eq_true, Bool.true_and]
    exact isPrefixCI_of_isPrefixOf cs ds hcs hrest

/-- Exact containment implies case-insensitive containment for a lowercase
needle. -/
theorem containsCI_of_containsCS (nd : Str) (hl : nd.map Char.toLower = nd) :
    ∀ hay, containsStr false nd hay = true → containsCI nd hay = true := by
  intro hay
  induction hay with
  | nil => intro h; exact h
  | cons c cs ih =>
    intro h
    unfold containsStr findIdx at h
    unfold containsCI containsStr findIdx
    by_cases hp : prefMatch true nd (c :: cs) = true
    · rw [if_pos hp]; rfl
    · have hpf : ¬(prefMatch false nd (c :: cs) = true) := by
        intro hcs2
        apply hp
        show isPrefixCI nd (c :: cs) = true
        exact isPrefixCI_of_isPrefixOf nd (c :: cs) hl hcs2
      rw [if_neg hpf] at h
      rw [if_neg hp]
      cases hfi : findIdx false nd cs with
      | none => rw [hfi] at h; simp at h
      | some k =>
        have hs : containsStr false nd cs = true := by
          unfold containsStr; rw [hfi]; rfl
        have h2 : (findIdx true nd cs).isSome = true := ih hs
        cases hfi2 : findIdx true nd cs with
        | none => rw [hfi2] at h2; simp at h2
        | some k2 => rfl

/-- The literal substring `g-recaptcha` trips the CAPTCHA signal set. -/
theorem captchaSignals_of_grecaptcha (html : Str)
    (h : containsStr false (str "g-recaptcha") html = true) :
    captchaSignalsTest html = true := by
  unfold captchaSignalsTest
  rw [containsCI_of_containsCS (str "g-recaptcha") (by decide) html h]
  simp

/-- C2: when Tier 2's fetch returns HTML containing the literal substring
`g-recaptcha` (or any other configured CAPTCHA signal), the item escalates to
Tier 3, the Tier 3 outcome has `success = false`, and the pipeline issues no
submission POST for the item — the only outbound request is the website GET. -/
theorem captcha_short_circuit (fetch : Fetcher) (jsonParse : JsonParser) (n : Nat)
    (enrichment : Option EnrichmentRecord) (item : SubscribeItem)
    (html : Str) (status : Nat)
    (hTier1 : tier1Entered enrichment = false)
    (hFetch : fetch n (getRequest item.website_url) = .resp status (.ok html))
    (hOk : respOk status = true)
    (hSignal : containsStr false (str "g-recaptcha") html = true ∨
      captchaSignalsTest html = true) :
    (processItem fetch jsonParse n enrichment item).1.tier = str "tier3_needs_manual" ∧
    (processItem fetch jsonParse n enrichment item).1.success = false ∧
    (∀ a ∈ (processItem fetch jsonParse n enrichment item).2.1,
      a.tier = str "tier3_needs_manual" ∧ a.success = false) ∧
    (processItem fetch jsonParse n enrichment item).2.2.1 =
      [getRequest item.website_url] := by
  have hCap : captchaSignalsTest html = true := by
    rcases hSignal with h | h
    · exact captchaSignals_of_grecaptcha html h
    · exact h
  have hne : html ≠ [] := by
    intro he; subst he; exact absurd hCap (by decide)
  have hT2 : tier2FormSubmit fetch n item.website_url item.email =
      (.captcha, n + 1, [getRequest item.website_url]) := by
    unfold tier2FormSubmit
    dsimp only
    rw [hFetch]
    dsimp only
    simp only [hOk, Bool.not_true, Bool.false_eq_true, if_false]
    rw [if_neg hne]
    rw [if_pos hCap]
  rw [processItem_not_tier1 fetch jsonParse n enrichment item hTier1]
  unfold tier23
  dsimp only
  rw [hT2]
  dsimp only
  refine ⟨rfl, rfl, ?_, rfl⟩
  intro a ha
  rw [List.mem_singleton] at ha
  subst ha
  exact ⟨rfl, rfl⟩

/-- C2 witness: the concrete reCAPTCHA page escalates to Tier 3 with only the
website GET on the wire. -/
theorem captcha_short_circuit_witness :
    (processItem captchaFetcher noParse 0 none c1Item).1.tier =
      str "tier3_needs_manual" ∧
    (processItem captchaFetcher noParse 0 none c1Item).2.2.1 =
      [getRequest (str "https://x.example")] :=
  ⟨(captcha_short_circuit captchaFetcher noParse 0 none c1Item
      (str "<div class=\"g-recaptcha\"></div>") 200 (by decide) rfl (by decide)
      (Or.inl (by decide))).1,
   (captcha_short_circuit captchaFetcher noParse 0 none c1Item
      (str "<div class=\"g-recaptcha\"></div>") 200 (by decide) rfl (by decide)
      (Or.inl (by decide))).2.2.2⟩

/-- Every registered matcher reports `matched` exactly when its confidence is
positive (each returns `matched: confidence > 0`). -/
theorem matched_eq_confidence_pos (m : ProviderMatcher) (hm : m ∈ providerMatchers)
    (html : Str) :
    (m.detect html).matched = decide (0 < (m.detect html).confidence) := by
  fin_cases hm <;> rfl

/-- Characterisation of the strict-improvement fold: either no matcher beats
the accumulator and it survives, or the registry splits around the first
matcher attaining the maximum, which the fold returns. -/
theorem selFold_characterisation (html : Str) :
    ∀ (l : List ProviderMatcher) (b : ProviderDetectionResult),
      (∀ m ∈ l, (m.detect html).matched = decide (0 < (m.detect html).confidence)) →
      ((∀ m ∈ l, (m.detect html).confidence ≤ b.confidence) ∧
        l.foldl (selStep html) b = b) ∨
      (∃ l₁ m l₂, l = l₁ ++ m :: l₂ ∧
        b.confidence < (m.detect html).confidence ∧
        (∀ q ∈ l₁, (q.detect html).confidence < (m.detect html).confidence) ∧
        (∀ q ∈ l₂, (q.detect html).confidence ≤ (m.detect html).confidence) ∧
        l.foldl (selStep html) b = mkDetection m (m.detect html)) := by
  intro l
  induction l with
  | nil => intro b _; exact Or.inl ⟨by simp, rfl⟩
  | cons e t ih =>
    intro b inv
    have inve := inv e (List.mem_cons_self e t)
    have invt : ∀ m ∈ t, (m.detect html).matched = decide (0 < (m.detect html).confidence) :=
      fun m hm => inv m (List.mem_cons_of_mem e hm)
    by_cases hlt : b.confidence < (e.detect html).confidence
    · have hmatched : (e.detect html).matched = true := by
        rw [inve]
        exact decide_eq_true (Nat.lt_of_le_of_lt (Nat.zero_le _) hlt)
      have hstep : selStep html b e = mkDetection e (e.detect html) := by
        unfold selStep
        rw [if_pos]
        · rfl
        · rw [hmatched]; simpa using hlt
      have hfold : (e :: t).foldl (selStep html) b =
          t.foldl (selStep html) (mkDetection e (e.detect html)) := by
        rw [List.foldl_cons, hstep]
      rcases ih (mkDetection e (e.detect html)) invt with ⟨hall, heq⟩ | ⟨t₁, m, t₂, hsplit, hgt, hl₁, hl₂, heq⟩
      · refine Or.inr ⟨[], e, t, by simp, hlt, by simp, ?_, ?_⟩
        · intro q hq; exact hall q hq
        · rw [hfold, heq]
      · refine Or.inr ⟨e :: t₁, m, t₂, by rw [hsplit]; rfl, ?_, ?_, hl₂, ?_⟩
        · exact Nat.lt_trans hlt hgt
        · intro q hq
          rcases List.mem_cons.mp hq with hq | hq
          · subst hq; exact hgt
          · exact hl₁ q hq
        · rw [hfold, heq]
    · have hstep : selStep html b e = b := by
        unfold selStep
        rw [if_neg]
        intro hcond
        exact hlt (by simpa using (Bool.and_eq_true _ _ |>.mp hcond).2)
      have hfold : (e :: t).foldl (selStep html) b = t.foldl (selStep html) b := by
        rw [List.foldl_cons, hstep]
      rcases ih b invt with ⟨hall, heq⟩ | ⟨t₁, m, t₂, hsplit, hgt, hl₁, hl₂, heq⟩
      · refine Or.inl ⟨?_, by rw [hfold, heq]⟩
        intro q hq
        rcases List.mem_cons.mp hq with hq | hq
        · subst hq; omega
        · exact hall q hq
      · refine Or.inr ⟨e :: t₁, m, t₂, by rw [hsplit]; rfl, hgt, ?_, hl₂, by rw [hfold, heq]⟩
        intro q hq
        rcases List.mem_cons.mp hq with hq | hq
        · subst hq; omega
        · exact hl₁ q hq

/-- C4: `detectNewsletterProvider` runs every registered matcher and returns
the result of the matcher with the strictly highest confidence — ties keep the
first matcher in registry order (every earlier matcher scores strictly less,
every later one no more); a matcher with zero confidence is never selected;
and when no matcher scores above zero the result is exactly
`{provider: null, directEndpoint: null, confidence: 0, extractedParams: {}}`. -/
theorem detect_selection_rule (html : Str) :
    ((∀ m ∈ providerMatchers, (m.detect html).confidence = 0) →
      detectNewsletterProvider html = emptyDetection) ∧
    ((∃ m ∈ providerMatchers, 0 < (m.detect html).confidence) →
      ∃ l₁ m l₂, providerMatchers = l₁ ++ m :: l₂ ∧
        0 < (m.detect html).confidence ∧
        (∀ q ∈ l₁, (q.detect html).confidence < (m.detect html).confidence) ∧
        (∀ q ∈ l₂, (q.detect html).confidence ≤ (m.detect html).confidence) ∧
        detectNewsletterProvider html =
          { provider := some m.name, directEndpoint := (m.detect html).endpoint,
            confidence := (m.detect html).confidence,
            extractedParams := (m.detect html).params }) := by
  have inv := fun m hm => matched_eq_confidence_pos m hm html
  have hchar := selFold_characterisation html providerMatchers emptyDetection inv
  constructor
  · intro hz
    rcases hchar with ⟨_, heq⟩ | ⟨l₁, m, l₂, hsplit, hgt, _, _, _⟩
    · exact heq
    · exfalso
      have hm : m ∈ providerMatchers := by
        rw [hsplit]; exact List.mem_append_right _ (List.mem_cons_self _ _)
      have := hz m hm
      have hb : emptyDetection.confidence = 0 := rfl
      omega
  · rintro ⟨m0, hm0, hpos⟩
    rcases hchar with ⟨hall, _⟩ | ⟨l₁, m, l₂, hsplit, hgt, hl₁, hl₂, heq⟩
    · exfalso
      have := hall m0 hm0
      have hb : emptyDetection.confidence = 0 := rfl
      omega
    · exact ⟨l₁, m, l₂, hsplit, by
        have hb : emptyDetection.confidence = 0 := rfl
        omega, hl₁, hl₂, heq⟩

/-- C4 witness: on the empty document every matcher scores zero and the
classifier returns the all-null result. -/
theorem detect_selection_rule_witness :
    (∀ m ∈ providerMatchers, (m.detect []).confidence = 0) ∧
    detectNewsletterProvider [] = emptyDetection :=
  ⟨by decide, (detect_selection_rule []).1 (by decide)⟩

set_option maxRecDepth 40000 in
/-- C5: on a form whose action is the list-manage subscribe URL with `u` and
`id` query parameters and a hidden `MMERGE1` input inside the same form, the
classifier returns `mailchimp`, the action URL as the direct endpoint, and
exactly the parameters `u = AAA`, `id = BBB`, `MMERGE1 = x`. -/
theorem mailchimp_scenario :
    detectNewsletterProvider mcScenarioHtml =
      { provider := some (str "mailchimp"),
        directEndpoint :=
          some (str "https://site.us1.list-manage.com/subscribe/post?u=AAA&id=BBB"),
        confidence := 50,
        extractedParams :=
          [(str "u", str "AAA"), (str "id", str "BBB"), (str "MMERGE1", str "x")] } := by
  decide

/-- The selection fold preserves "endpoint set implies provider set": every
update writes `provider := some name`. -/
theorem selFold_provider_of_endpoint (html : Str) :
    ∀ (l : List ProviderMatcher) (b : ProviderDetectionResult),
      (b.directEndpoint ≠ none → b.provider ≠ none) →
      ((l.foldl (selStep html) b).directEndpoint ≠ none →
        (l.foldl (selStep html) b).provider ≠ none) := by
  intro l
  induction l with
  | nil => intro b hb; exact hb
  | cons e t ih =>
    intro b hb
    rw [List.foldl_cons]
    apply ih
    unfold selStep
    dsimp only
    split
    · intro _
      simp
    · exact hb

/-- C8: the classifier never returns a non-null direct endpoint with a null
provider, and consequently every record persisted by the enrichment
orchestrator satisfies `newsletter_direct_endpoint` set implies
`newsletter_provider` set. -/
theorem endpoint_implies_provider (fetch : Fetcher) (n : Nat)
    (now restaurantId websiteUrl : Str) :
    (∀ html, (detectNewsletterProvider html).directEndpoint ≠ none →
      (detectNewsletterProvider html).provider ≠ none) ∧
    (∀ r ∈ (enrichRestaurant fetch n now restaurantId websiteUrl).2.1,
      r.newsletter_direct_endpoint ≠ none → r.newsletter_provider ≠ none) := by
  have hdet : ∀ html, (detectNewsletterProvider html).directEndpoint ≠ none →
      (detectNewsletterProvider html).provider ≠ none := by
    intro html
    exact selFold_provider_of_endpoint html providerMatchers emptyDetection
      (fun h => absurd rfl h)
  refine ⟨hdet, ?_⟩
  intro r hr
  unfold enrichRestaurant at hr
  dsimp only at hr
  revert hr
  rcases fetch n (getRequest websiteUrl) with msg | ⟨s, b⟩
  · intro hr
    rw [List.mem_singleton] at hr
    subst hr
    intro h; exact absurd rfl h
  · dsimp only
    split
    · intro hr
      rw [List.mem_singleton] at hr
      subst hr
      intro h; exact absurd rfl h
    · rcases b with html | msg
      · dsimp only
        split
        · intro hr
          rw [List.mem_singleton] at hr
          subst hr
          intro h; exact absurd rfl h
        · intro hr
          rw [List.mem_singleton] at hr
          subst hr
          exact hdet html
      · intro hr
        rw [List.mem_singleton] at hr
        subst hr
        intro h; exact absurd rfl h

set_option maxRecDepth 40000 in
/-- C8 witness: a Mailchimp page yields a non-null provider from its non-null
endpoint. -/
theorem endpoint_implies_provider_witness :
    (detectNewsletterProvider mcScenarioHtml).provider ≠ none :=
  (endpoint_implies_provider errFetcher 0 [] [] []).1 mcScenarioHtml (by decide)

/-- C9: the classifier is a pure total function of the HTML text — it is
deterministic (equal inputs give equal outputs) and, being defined by
structural recursion over the input in this embedding, terminates on every
input, including arbitrarily large or malformed non-HTML text, with no
exception and no side effect. -/
theorem detect_deterministic (h₁ h₂ : Str) (h : h₁ = h₂) :
    detectNewsletterProvider h₁ = detectNewsletterProvider h₂ := by rw [h]

/-- C9 witness: determinism at a concrete malformed input. -/
theorem detect_deterministic_witness :
    detectNewsletterProvider (str "<<<not html & bytes \x01") =
      detectNewsletterProvider (str "<<<not html & bytes \x01") :=
  detect_deterministic (str "<<<not html & bytes \x01")
    (str "<<<not html & bytes \x01") rfl

set_option maxRecDepth 40000 in
/-- C7 counterexample: the same surface (form-with-action) emits two
candidates with the same URL — nothing is deduplicated within a surface. -/
theorem extract_dup_within_surface_counterexample :
    (extractNewsletterCandidates dupFormsHtml).map (fun c => (c.url, c.source)) =
      [(str "https://x.list-manage.com/subscribe/post", CandidateSource.form_action),
       (str "https://x.list-manage.com/subscribe/post", CandidateSource.form_action)] := by
  decide

/-- Stable insertion is a permutation. -/
theorem insertDesc_perm (c : NewsletterCandidate) (l : List NewsletterCandidate) :
    (insertDesc c l).Perm (c :: l) := by
  induction l with
  | nil => exact List.Perm.refl _
  | cons d ds ih =>
    unfold insertDesc
    split
    · exact List.Perm.refl _
    · exact (ih.cons d).trans (List.Perm.swap c d ds)

/-- The extractor's sort is a permutation: no candidate is dropped or added. -/
theorem sortCandidatesDesc_perm (l : List NewsletterCandidate) :
    (sortCandidatesDesc l).Perm l := by
  induction l with
  | nil => exact List.Perm.refl _
  | cons c cs ih => exact (insertDesc_perm c _).trans (ih.cons c)

/-- C7 (amended): the extractor performs no deduplication at all — the final
list is a permutation of every surface's scored matches (footer-weighted), so
its length is the sum of the per-surface counts and a URL repeated within one
surface yields several candidates; only sorting reorders them. -/
theorem extract_no_dedup (html : Str) :
    (extractNewsletterCandidates html).Perm
      (applyFooterBonus
        (formActionCandidates html ++ actionlessFormCandidates html ++
         linkCandidates html ++ embedCandidates html ++ scriptSrcCandidates html ++
         inlineScriptCandidates html)) ∧
    (extractNewsletterCandidates html).length =
      (formActionCandidates html).length + (actionlessFormCandidates html).length +
      (linkCandidates html).length + (embedCandidates html).length +
      (scriptSrcCandidates html).length + (inlineScriptCandidates html).length := by
  have hperm := sortCandidatesDesc_perm
    (applyFooterBonus
      (formActionCandidates html ++ actionlessFormCandidates html ++
       linkCandidates html ++ embedCandidates html ++ scriptSrcCandidates html ++
       inlineScriptCandidates html))
  refine ⟨hperm, ?_⟩
  unfold extractNewsletterCandidates
  rw [hperm.length_eq]
  unfold applyFooterBonus
  rw [List.length_map]
  simp [List.length_append]
  try omega

/-- C10: every candidate the actionless email-form surface produces carries
the literal placeholder URL `#actionless-email-form`; consequently, when such
a candidate ranks first in Tier 2's extractor fallback, the generic form POST
targets that placeholder rather than a real URL. -/
theorem actionless_placeholder_post (fetch : Fetcher) (jsonParse : JsonParser) (n : Nat)
    (enrichment : Option EnrichmentRecord) (item : SubscribeItem)
    (html : Str) (status : Nat)
    (hTier1 : tier1Entered enrichment = false)
    (hFetch : fetch n (getRequest item.website_url) = .resp status (.ok html))
    (hOk : respOk status = true)
    (hne : html ≠ [])
    (hCaptcha : captchaSignalsTest html = false)
    (hDet : (jsTruthy (detectNewsletterProvider html).directEndpoint &&
             jsTruthy (detectNewsletterProvider html).provider) = false)
    (best : NewsletterCandidate) (rest : List NewsletterCandidate)
    (hCand : extractNewsletterCandidates html = best :: rest)
    (hUrl : best.url = str "#actionless-email-form") :
    (∀ c ∈ actionlessFormCandidates html, c.url = str "#actionless-email-form") ∧
    genericRequest (str "#actionless-email-form") (str "email") item.email ∈
      (processItem fetch jsonParse n enrichment item).2.2.1 := by
  constructor
  · intro c hc
    unfold actionlessFormCandidates at hc
    rw [List.mem_filterMap] at hc
    obtain ⟨m, _, hm⟩ := hc
    dsimp only at hm
    split at hm
    · cases hm; rfl
    · exact absurd hm (by simp)
  · have hT2 : tier2FormSubmit fetch n item.website_url item.email =
        (.result (submitGenericProvider fetch (n + 1) best.url (str "email") item.email).1
           none (some best.url),
         (submitGenericProvider fetch (n + 1) best.url (str "email") item.email).2.1,
         getRequest item.website_url ::
           (submitGenericProvider fetch (n + 1) best.url (str "email") item.email).2.2) := by
      unfold tier2FormSubmit
      dsimp only
      rw [hFetch]
      dsimp only
      simp only [hOk, Bool.not_true, Bool.false_eq_true, if_false]
      rw [if_neg hne]
      simp only [hCaptcha, Bool.false_eq_true, if_false]
      simp only [hDet, Bool.false_eq_true, if_false]
      rw [hCand]
    rw [processItem_not_tier1 fetch jsonParse n enrichment item hTier1]
    unfold tier23
    dsimp only
    rw [hT2]
    dsimp only
    rw [(submitGenericProvider_shape fetch (n + 1) best.url (str "email") item.email).1]
    rw [hUrl]
    exact List.mem_cons_of_mem _ (List.mem_singleton.mpr rfl)

/-- C10 witness: the pipeline POSTs to the literal placeholder. -/
theorem actionless_placeholder_post_witness :
    genericRequest (str "#actionless-email-form") (str "email") (str "a@b.c") ∈
      (processItem actionlessFetcher noParse 0 none c1Item).2.2.1 :=
  (actionless_placeholder_post actionlessFetcher noParse 0 none c1Item
    (str "<form><input type=\"email\"></form>") 200 (by decide) rfl (by decide)
    (by decide) (by decide) (by decide) alCandidate [] (by decide) (by decide)).2

theorem snippet_le (b : BodyRead) : (snippetOf b).length ≤ 500 := by
  cases b with
  | ok t =>
    show (t.take 500).length ≤ 500
    rw [List.length_take]
    exact Nat.min_le_left _ _
  | err m => exact Nat.zero_le _

theorem submitMailchimp_contract (fetch : Fetcher) (n : Nat) (endpoint : Str)
    (params : Params) (email : Str) :
    submitterOk (mailchimpRequest endpoint params email) fetch n
      (submitMailchimp fetch n endpoint params email) := by
  unfold submitMailchimp
  dsimp only
  cases hf : fetch n (mailchimpRequest endpoint params email) with
  | netErr msg =>
    refine ⟨rfl, ?_, ?_⟩
    · intro m hm
      rw [hf] at hm
      cases hm
      exact ⟨rfl, infixOf_of_suffix _ _⟩
    · intro s b hb
      rw [hf] at hb
      exact absurd hb (by simp)
  | resp s b =>
    dsimp only
    split
    · rename_i hcond
      simp only [Bool.and_eq_true, decide_eq_true_eq] at hcond
      refine ⟨rfl, ?_, ?_⟩
      · intro m hm; rw [hf] at hm; exact absurd hm (by simp)
      · intro s2 b2 hb
        rw [hf] at hb
        cases hb
        refine ⟨⟨fun _ => hcond, fun _ => rfl⟩, ⟨str "Mailchimp POST ",
            str " to " ++ endpoint ++ str " — " ++ snippetOf b, by simp [List.append_assoc]⟩,
          infixOf_of_suffix _ _, snippet_le b, ?_⟩
        intro t ht; subst ht; rfl
    · rename_i hcond
      simp only [Bool.and_eq_true, decide_eq_true_eq, not_and] at hcond
      refine ⟨rfl, ?_, ?_⟩
      · intro m hm; rw [hf] at hm; exact absurd hm (by simp)
      · intro s2 b2 hb
        rw [hf] at hb
        cases hb
        refine ⟨⟨fun hx => absurd hx (by simp), fun hin => absurd hin ?_⟩,
          ⟨str "Mailchimp POST returned ", str " — " ++ snippetOf b,
            by simp [List.append_assoc]⟩,
          infixOf_of_suffix _ _, snippet_le b, ?_⟩
        · intro hin2
          exact hcond hin2.1 hin2.2
        · intro t ht; subst ht; rfl

theorem submitKlaviyo_contract (fetch : Fetcher) (n : Nat) (endpoint : Str)
    (params : Params) (email : Str) :
    submitterOk (klaviyoRequest endpoint params email) fetch n
      (submitKlaviyo fetch n endpoint params email) := by
  unfold submitKlaviyo
  dsimp only
  cases hf : fetch n (klaviyoRequest endpoint params email) with
  | netErr msg =>
    refine ⟨rfl, ?_, ?_⟩
    · intro m hm
      rw [hf] at hm
      cases hm
      exact ⟨rfl, infixOf_of_suffix _ _⟩
    · intro s b hb
      rw [hf] at hb
      exact absurd hb (by simp)
  | resp s b =>
    dsimp only
    split
    · rename_i hcond
      simp only [Bool.and_eq_true, decide_eq_true_eq] at hcond
      refine ⟨rfl, ?_, ?_⟩
      · intro m hm; rw [hf] at hm; exact absurd hm (by simp)
      · intro s2 b2 hb
        rw [hf] at hb
        cases hb
        refine ⟨⟨fun _ => hcond, fun _ => rfl⟩, ⟨str "Klaviyo POST ",
            str " to " ++ endpoint ++ str " — " ++ snippetOf b, by simp [List.append_assoc]⟩,
          infixOf_of_suffix _ _, snippet_le b, ?_⟩
        intro t ht; subst ht; rfl
    · rename_i hcond
      simp only [Bool.and_eq_true, decide_eq_true_eq, not_and] at hcond
      refine ⟨rfl, ?_, ?_⟩
      · intro m hm; rw [hf] at hm; exact absurd hm (by simp)
      · intro s2 b2 hb
        rw [hf] at hb
        cases hb
        refine ⟨⟨fun hx => absurd hx (by simp), fun hin => absurd hin ?_⟩,
          ⟨str "Klaviyo POST returned ", str " — " ++ snippetOf b,
            by simp [List.append_assoc]⟩,
          infixOf_of_suffix _ _, snippet_le b, ?_⟩
        · intro hin2
          exact hcond hin2.1 hin2.2
        · intro t ht; subst ht; rfl

theorem submitGenericProvider_contract (fetch : Fetcher) (n : Nat) (endpoint : Str)
    (emailField email : Str) :
    submitterOk (genericRequest endpoint emailField email) fetch n
      (submitGenericProvider fetch n endpoint emailField email) := by
  unfold submitGenericProvider
  dsimp only
  cases hf : fetch n (genericRequest endpoint emailField email) with
  | netErr msg =>
    refine ⟨rfl, ?_, ?_⟩
    · intro m hm
      rw [hf] at hm
      cases hm
      exact ⟨rfl, infixOf_of_suffix _ _⟩
    · intro s b hb
      rw [hf] at hb
      exact absurd hb (by simp)
  | resp s b =>
    dsimp only
    split
    · rename_i hcond
      simp only [Bool.and_eq_true, decide_eq_true_eq] at hcond
      refine ⟨rfl, ?_, ?_⟩
      · intro m hm; rw [hf] at hm; exact absurd hm (by simp)
      · intro s2 b2 hb
        rw [hf] at hb
        cases hb
        refine ⟨⟨fun _ => hcond, fun _ => rfl⟩, ⟨str "Provider POST ",
            str " to " ++ endpoint ++ str " — " ++ snippetOf b, by simp [List.append_assoc]⟩,
          infixOf_of_suffix _ _, snippet_le b, ?_⟩
        intro t ht; subst ht; rfl
    · rename_i hcond
      simp only [Bool.and_eq_true, decide_eq_true_eq, not_and] at hcond
      refine ⟨rfl, ?_, ?_⟩
      · intro m hm; rw [hf] at hm; exact absurd hm (by simp)
      · intro s2 b2 hb
        rw [hf] at hb
        cases hb
        refine ⟨⟨fun hx => absurd hx (by simp), fun hin => absurd hin ?_⟩,
          ⟨str "Provider POST returned ", str " — " ++ snippetOf b,
            by simp [List.append_assoc]⟩,
          infixOf_of_suffix _ _, snippet_le b, ?_⟩
        · intro hin2
          exact hcond hin2.1 hin2.2
        · intro t ht; subst ht; rfl

theorem submitSquarespace_contract (fetch : Fetcher) (n : Nat) (endpoint : Str)
    (params : Params) (email : Str) :
    submitterOk (squarespaceRequest endpoint email) fetch n
      (submitSquarespace fetch n endpoint params email) := by
  unfold submitSquarespace
  dsimp only
  cases hf : fetch n (squarespaceRequest endpoint email) with
  | netErr msg =>
    refine ⟨rfl, ?_, ?_⟩
    · intro m hm
      rw [hf] at hm
      cases hm
      exact ⟨rfl, infixOf_of_suffix _ _⟩
    · intro s b hb
      rw [hf] at hb
      exact absurd hb (by simp)
  | resp s b =>
    dsimp only
    split
    · rename_i hcond
      simp only [Bool.and_eq_true, decide_eq_true_eq] at hcond
      refine ⟨rfl, ?_, ?_⟩
      · intro m hm; rw [hf] at hm; exact absurd hm (by simp)
      · intro s2 b2 hb
        rw [hf] at hb
        cases hb
        refine ⟨⟨fun _ => hcond, fun _ => rfl⟩, ⟨str "Squarespace POST ",
            str " to " ++ endpoint ++ str " — " ++ snippetOf b, by simp [List.append_assoc]⟩,
          infixOf_of_suffix _ _, snippet_le b, ?_⟩
        intro t ht; subst ht; rfl
    · rename_i hcond
      simp only [Bool.and_eq_true, decide_eq_true_eq, not_and] at hcond
      refine ⟨rfl, ?_, ?_⟩
      · intro m hm; rw [hf] at hm; exact absurd hm (by simp)
      · intro s2 b2 hb
        rw [hf] at hb
        cases hb
        refine ⟨⟨fun hx => absurd hx (by simp), fun hin => absurd hin ?_⟩,
          ⟨str "Squarespace POST returned ", str " — " ++ snippetOf b,
            by simp [List.append_assoc]⟩,
          infixOf_of_suffix _ _, snippet_le b, ?_⟩
        · intro hin2
          exact hcond hin2.1 hin2.2
        · intro t ht; subst ht; rfl

/-- C6: every provider submitter issues exactly one outbound request and never
raises — a network failure yields `success = false` with the failure message
inside the evidence; a response with status `s` yields `success = true` iff
200 ≤ s < 400, and the evidence contains the numeric status together with a
snippet of at most 500 characters of the response body. -/
theorem submitter_contract (fetch : Fetcher) (n : Nat) (endpoint : Str)
    (params : Params) (emailField email : Str) :
    submitterOk (mailchimpRequest endpoint params email) fetch n
      (submitMailchimp fetch n endpoint params email) ∧
    submitterOk (klaviyoRequest endpoint params email) fetch n
      (submitKlaviyo fetch n endpoint params email) ∧
    submitterOk (genericRequest endpoint emailField email) fetch n
      (submitGenericProvider fetch n endpoint emailField email) ∧
    submitterOk (squarespaceRequest endpoint email) fetch n
      (submitSquarespace fetch n endpoint params email) :=
  ⟨submitMailchimp_contract fetch n endpoint params email,
   submitKlaviyo_contract fetch n endpoint params email,
   submitGenericProvider_contract fetch n endpoint emailField email,
   submitSquarespace_contract fetch n endpoint params email⟩

/-- C6 witness: a 200 response is classified as success. -/
theorem submitter_contract_witness :
    (submitMailchimp okFetcher 0 (str "https://e.x") [] (str "a@b.c")).1.success = true :=
  ((submitter_contract okFetcher 0 (str "https://e.x") [] (str "email")
      (str "a@b.c")).1.2.2 200 (.ok (str "ok")) rfl).1.mpr (by omega)
